import Mathlib

/-!
# SalahNow CLI — verification of the prayer-time resolution and caching pipeline

Shallow embedding of the core modules of the repository:

* `src/salahnow_cli/models.py`       — `Location`, `PrayerTimes`, `PrayerSource`
* `src/salahnow_cli/cache.py`        — persisted per-(location, source) bundle cache
* `src/salahnow_cli/prayer_api.py`   — source resolution, time normalization,
  field extraction, fetch orchestration with stale-cache fallback
* `src/salahnow_cli/prayer_logic.py` — current/next prayer computation, countdown

Modelling conventions:

* Parsed JSON values are modelled by the inductive `Json`; numeric JSON values
  are modelled as integers (no claim depends on fractional numbers).
* Python `dict`s obtained from `json.loads` are association lists that are
  deduplicated (`pyDict`) at each point where the code indexes into them, which
  matches `json.loads` keeping the last occurrence of a duplicated key.
* Impure clock/timezone readings (`datetime.now`, `ZoneInfo`) are supplied by an
  explicit `Clock` value: `zoneValid z` models whether `ZoneInfo(z)` constructs
  without raising, `dateInZone z` the current ISO date in zone `z`, `dateLocal`
  the local system date, `fetchedAt` the `datetime.now().astimezone().isoformat()`
  stamp.  A fixed-offset model of time is used (no DST transitions).
* Python string methods `.upper()`, `.lower()`, `.strip()` and the regex class
  `\d` are modelled on ASCII, which covers every string the code and the claims
  exercise.
* Fallible code returns `Option`/`Except`; `PrayerApiError` messages are plain
  strings.
-/

/-- A parsed JSON value (`json.loads` result).  Numbers are modelled as
integers. -/
inductive Json where
  | null : Json
  | bool (b : Bool) : Json
  | num (n : Int) : Json
  | str (s : String) : Json
  | arr (elems : List Json) : Json
  | obj (fields : List (String × Json)) : Json

/-- Python truthiness (`if x:`) of a parsed JSON value. -/
def pyTruthy : Json → Bool
  | .null => false
  | .bool b => b
  | .num n => n != 0
  | .str s => s != ""
  | .arr xs => !xs.isEmpty
  | .obj fs => !fs.isEmpty

/-- `d[k] = v` on a Python dict: update the value in place if the key exists,
else append the new binding at the end. -/
def pyDictInsert : List (String × Json) → String → Json → List (String × Json)
  | [], k, v => [(k, v)]
  | (k', v') :: rest, k, v =>
    if k' = k then (k, v) :: rest else (k', v') :: pyDictInsert rest k v

/-- `d.get(k)` / `d[k]` lookup on a Python dict (keys are unique, so
first-match lookup). -/
def pyDictGet : List (String × Json) → String → Option Json
  | [], _ => none
  | (k', v) :: rest, k => if k' = k then some v else pyDictGet rest k

/-- The Python dict built by assigning the bindings in order — `json.loads`
keeps the position of the first occurrence of a key and the value of the
last. -/
def pyDict (l : List (String × Json)) : List (String × Json) :=
  l.foldl (fun acc kv => pyDictInsert acc kv.1 kv.2) []

mutual

/-- Python `repr()` of a parsed JSON value (`None`/`True`/`False`, decimal
integers, quoted strings, bracketed containers).  String-escape sequences
inside reprs are not modelled; no theorem depends on them. -/
def pyRepr : Json → String
  | .null => "None"
  | .bool true => "True"
  | .bool false => "False"
  | .num n => toString n
  | .str s => "'" ++ s ++ "'"
  | .arr xs => "[" ++ pyReprSeq xs ++ "]"
  | .obj fs => "\x7b" ++ pyReprFields fs ++ "\x7d"

/-- Comma-separated reprs of the elements of a list. -/
def pyReprSeq : List Json → String
  | [] => ""
  | [x] => pyRepr x
  | x :: y :: rest => pyRepr x ++ ", " ++ pyReprSeq (y :: rest)

/-- Comma-separated `'key': value` reprs of the fields of an object. -/
def pyReprFields : List (String × Json) → String
  | [] => ""
  | [(k, v)] => "'" ++ k ++ "': " ++ pyRepr v
  | (k, v) :: kv :: rest => "'" ++ k ++ "': " ++ pyRepr v ++ ", " ++ pyReprFields (kv :: rest)

end

/-- Python `str()` of a parsed JSON value: the identity on strings, the repr
otherwise (as used by `str(entry[...])` in `_parse_cached_entry` and
`PrayerTimes.from_dict`). -/
def pyStr : Json → String
  | .str s => s
  | .null => "None"
  | .bool true => "True"
  | .bool false => "False"
  | .num n => toString n
  | .arr xs => pyRepr (.arr xs)
  | .obj fs => pyRepr (.obj fs)

/-- Simple uppercase mapping of Python `str.upper()` on the Basic Latin and
Latin-1 Supplement blocks: `a`–`z` and `à`–`þ` (except the division sign `÷`)
shift down by 32 code points; every other character is unchanged.  Python's
multi-character or cross-block mappings (`ß`, `ÿ`, `µ`, and anything outside
Latin-1) are not modelled; none of them can produce the ASCII letters the
code's comparison against "TR" is sensitive to. -/
def pyUpperChar (c : Char) : Char :=
  if 97 ≤ c.toNat ∧ c.toNat ≤ 122 then Char.ofNat (c.toNat - 32)
  else if 224 ≤ c.toNat ∧ c.toNat ≤ 254 ∧ c.toNat ≠ 247 then Char.ofNat (c.toNat - 32)
  else c

/-- Python `str.upper()` (see `pyUpperChar`). -/
def pyUpper (s : String) : String := String.mk (s.data.map pyUpperChar)

/-- Simple lowercase mapping of Python `str.lower()` on the Basic Latin and
Latin-1 Supplement blocks: `A`–`Z` and `À`–`Þ` (except the multiplication
sign `×`) shift up by 32 code points; every other character is unchanged.
In particular U+00C3 `Ã` lowers to U+00E3 `ã`, as in Python, so a lowered
string never contains `Ã`. -/
def pyLowerChar (c : Char) : Char :=
  if 65 ≤ c.toNat ∧ c.toNat ≤ 90 then Char.ofNat (c.toNat + 32)
  else if 192 ≤ c.toNat ∧ c.toNat ≤ 222 ∧ c.toNat ≠ 215 then Char.ofNat (c.toNat + 32)
  else c

/-- Python `str.lower()` (see `pyLowerChar`). -/
def pyLower (s : String) : String := String.mk (s.data.map pyLowerChar)

/-- ASCII-whitespace model of Python `str.strip()`: drop leading and trailing
whitespace characters. -/
def pyStrip (s : String) : String :=
  String.mk (((s.data.dropWhile Char.isWhitespace).reverse.dropWhile
    Char.isWhitespace).reverse)

/-- `models.py` — `PrayerSource = Literal["diyanet", "mwl"]`. -/
inductive PrayerSource where
  | diyanet : PrayerSource
  | mwl : PrayerSource
deriving DecidableEq

/-- The string form of a source, as interpolated into the cache key. -/
def PrayerSource.toStr : PrayerSource → String
  | .diyanet => "diyanet"
  | .mwl => "mwl"

/-- `models.py` — `PrayerName` literal type, in the fixed order of
`PRAYER_NAMES`. -/
inductive PrayerName where
  | Fajr | Sunrise | Dhuhr | Asr | Maghrib | Isha
deriving DecidableEq

/-- `models.py` — `PRAYER_NAMES`, the fixed prayer order. -/
def PRAYER_NAMES : List PrayerName :=
  [.Fajr, .Sunrise, .Dhuhr, .Asr, .Maghrib, .Isha]

/-- `models.py` — `Location`.  Coordinates are modelled as integers scaled by
`10^5`, the exact resolution at which the cache key renders them with
`f"{lat:.5f}"`. -/
structure Location where
  city : String
  country : String
  countryCode : String
  lat : Int
  lon : Int
  addressLabel : Option String := none
  diyanetIlceId : Option String := none
deriving DecidableEq

/-- `models.py` — `PrayerTimes`: six named `HH:MM` slots. -/
structure PrayerTimes where
  Fajr : String
  Sunrise : String
  Dhuhr : String
  Asr : String
  Maghrib : String
  Isha : String
deriving DecidableEq

/-- `models.py` — `PrayerTimes.get`. -/
def PrayerTimes.get (pt : PrayerTimes) : PrayerName → String
  | .Fajr => pt.Fajr
  | .Sunrise => pt.Sunrise
  | .Dhuhr => pt.Dhuhr
  | .Asr => pt.Asr
  | .Maghrib => pt.Maghrib
  | .Isha => pt.Isha

/-- `models.py` — `PrayerTimes.to_dict`. -/
def PrayerTimes.to_dict (pt : PrayerTimes) : List (String × Json) :=
  [("Fajr", .str pt.Fajr), ("Sunrise", .str pt.Sunrise), ("Dhuhr", .str pt.Dhuhr),
   ("Asr", .str pt.Asr), ("Maghrib", .str pt.Maghrib), ("Isha", .str pt.Isha)]

/-- `models.py` — `PrayerTimes.from_dict` applied to a parsed JSON value, as
`_parse_cached_entry` does.  A non-object raises `TypeError` and a missing key
raises `KeyError` (both caught by the caller, hence `none`); present values of
any type are coerced with `str()`. -/
def PrayerTimes.from_json (j : Json) : Option PrayerTimes :=
  match j with
  | .obj fs0 =>
    let fs := pyDict fs0
    match pyDictGet fs "Fajr", pyDictGet fs "Sunrise", pyDictGet fs "Dhuhr",
          pyDictGet fs "Asr", pyDictGet fs "Maghrib", pyDictGet fs "Isha" with
    | some f, some s, some d, some a, some m, some i =>
      some ⟨pyStr f, pyStr s, pyStr d, pyStr a, pyStr m, pyStr i⟩
    | _, _, _, _, _, _ => none
  | _ => none

/-! ## Cache store (`cache.py`) -/

/-- The observable content of the cache file: absent, unreadable (`OSError`),
text that is not JSON (`json.JSONDecodeError`), or a parsed JSON value. -/
inductive CacheFile where
  | missing : CacheFile
  | unreadable : CacheFile
  | invalidJson : CacheFile
  | content (j : Json) : CacheFile

/-- `cache.py` — `DIYANET_TIME_ZONE`. -/
def DIYANET_TIME_ZONE : String := "Europe/Istanbul"

/-- The impure clock/timezone environment of one call (see module header). -/
structure Clock where
  zoneValid : String → Bool
  dateInZone : String → String
  dateLocal : String
  fetchedAt : String

/-- `cache.py` — `CachedPrayerBundle`.  `time_zone` holds the raw value of the
entry's `time_zone` key; `none` models Python `None` (the key being absent or
JSON `null`). -/
structure CachedPrayerBundle where
  times : PrayerTimes
  tomorrow_fajr : String
  time_zone : Option Json
  date : String
  fetched_at : String

/-- Zero-pad a natural number to at least five digits (for the fractional part
of `f"{x:.5f}"`). -/
def pad5 (n : Nat) : String :=
  let s := toString n
  String.mk (List.replicate (5 - s.length) '0') ++ s

/-- `f"{x:.5f}"` applied to a coordinate held at `10^-5` resolution. -/
def fmt5 (x : Int) : String :=
  (if x < 0 then "-" else "") ++ toString (x.natAbs / 100000) ++ "." ++ pad5 (x.natAbs % 100000)

/-- `cache.py` — `_cache_key`. -/
def _cache_key (location : Location) (source : PrayerSource) : String :=
  location.city ++ "-" ++ location.countryCode ++ "-" ++ fmt5 location.lat ++ "-" ++
    fmt5 location.lon ++ "-" ++ source.toStr

/-- `cache.py` — `_safe_read_cache`: a missing, unreadable or non-JSON file and
a JSON value that is not an object all degrade to the empty dict. -/
def _safe_read_cache (store : CacheFile) : List (String × Json) :=
  match store with
  | .content (.obj fs) => pyDict fs
  | _ => []

/-- `cache.py` — `_date_string_for_zone`.  The argument holds the Python value
of `time_zone` (`Json.str z` for a string, `none` for `None`).  `if time_zone:`
is Python truthiness; `ZoneInfo` succeeds only on a string naming a valid zone
(any failure is swallowed and falls through). -/
def _date_string_for_zone (clk : Clock) (time_zone : Option Json) (source : PrayerSource) :
    String :=
  let viaZone : Option String :=
    match time_zone with
    | some j =>
      if pyTruthy j then
        match j with
        | .str z => if clk.zoneValid z then some (clk.dateInZone z) else none
        | _ => none
      else none
    | none => none
  match viaZone with
  | some d => d
  | none =>
    if source = .diyanet then clk.dateInZone DIYANET_TIME_ZONE else clk.dateLocal

/-- `cache.py` — `_parse_cached_entry` applied to `data.get(key)`.  A value
that is not an object, a missing required key, or a `times` value that
`PrayerTimes.from_dict` rejects all raise inside the `try` and yield `None`;
present scalar fields are coerced with `str()` and `time_zone` is taken
as-is. -/
def _parse_cached_entry (entry : Option Json) : Option CachedPrayerBundle :=
  match entry with
  | some (.obj fs0) =>
    let fs := pyDict fs0
    match pyDictGet fs "times", pyDictGet fs "tomorrow_fajr",
          pyDictGet fs "date", pyDictGet fs "fetched_at" with
    | some timesJ, some tfJ, some dateJ, some faJ =>
      match PrayerTimes.from_json timesJ with
      | some times =>
        some { times := times, tomorrow_fajr := pyStr tfJ,
               time_zone := (match pyDictGet fs "time_zone" with
                             | some .null => none
                             | o => o),
               date := pyStr dateJ, fetched_at := pyStr faJ }
      | none => none
    | _, _, _, _ => none
  | _ => none

/-- `cache.py` — `get_fresh_cached_bundle`. -/
def get_fresh_cached_bundle (clk : Clock) (store : CacheFile) (location : Location)
    (source : PrayerSource) : Option CachedPrayerBundle :=
  let data := _safe_read_cache store
  let key := _cache_key location source
  match _parse_cached_entry (pyDictGet data key) with
  | none => none
  | some entry =>
    let expected_date := _date_string_for_zone clk entry.time_zone source
    if entry.date = expected_date then some entry else none

/-- `cache.py` — `get_stale_cached_bundle`. -/
def get_stale_cached_bundle (store : CacheFile) (location : Location)
    (source : PrayerSource) : Option CachedPrayerBundle :=
  let data := _safe_read_cache store
  let key := _cache_key location source
  _parse_cached_entry (pyDictGet data key)

/-- `cache.py` — `set_cached_bundle`: read-modify-write of the whole store. -/
def set_cached_bundle (clk : Clock) (store : CacheFile) (location : Location)
    (source : PrayerSource) (times : PrayerTimes) (tomorrow_fajr : String)
    (time_zone : Option String) : CacheFile :=
  let data := _safe_read_cache store
  let key := _cache_key location source
  let entry : Json := .obj
    [("times", .obj times.to_dict),
     ("tomorrow_fajr", .str tomorrow_fajr),
     ("time_zone", match time_zone with | some z => .str z | none => .null),
     ("date", .str (_date_string_for_zone clk (time_zone.map .str) source)),
     ("fetched_at", .str clk.fetchedAt)]
  .content (.obj (pyDictInsert data key entry))

/-! ## Provider adapters and orchestrator (`prayer_api.py`) -/

/-- `TURKEY_COUNTRY_CODE`. -/
def TURKEY_COUNTRY_CODE : String := "TR"

/-- The regex class `\d` (ASCII model). -/
def isDigitChar (c : Char) : Bool := '0' ≤ c && c ≤ '9'

/-- Numeric value of a digit character. -/
def digitVal (c : Char) : Nat := c.toNat - '0'.toNat

/-- One attempt of `re.search(r"(\d{1,2}):(\d{2})", ...)` anchored at the head
of the remaining characters: the greedy two-digit hour first, else one digit
(the two alternatives are mutually exclusive at a fixed start, since the
character after the first digit is either a digit or a colon). -/
def matchAt : List Char → Option (Nat × Nat)
  | a :: b :: rest =>
    if isDigitChar a then
      if isDigitChar b then
        match rest with
        | ':' :: m1 :: m2 :: _ =>
          if isDigitChar m1 && isDigitChar m2 then
            some (10 * digitVal a + digitVal b, 10 * digitVal m1 + digitVal m2)
          else none
        | _ => none
      else if b = ':' then
        match rest with
        | m1 :: m2 :: _ =>
          if isDigitChar m1 && isDigitChar m2 then
            some (digitVal a, 10 * digitVal m1 + digitVal m2)
          else none
        | _ => none
      else none
    else none
  | _ => none

/-- `re.search`: try successive start positions left to right. -/
def searchHHMM : List Char → Option (Nat × Nat)
  | [] => none
  | c :: cs =>
    match matchAt (c :: cs) with
    | some r => some r
    | none => searchHHMM cs

/-- Python `f"{n:02}"`: zero-pad to at least two digits. -/
def pad2 (n : Nat) : String := if n < 10 then "0" ++ toString n else toString n

/-- `prayer_api.py` — `format_time_to_hhmm`: reformat the first `H:MM`-like
substring as zero-padded `HH:MM`, or return the input unchanged when there is
no match. -/
def format_time_to_hhmm (value : String) : String :=
  match searchHHMM value.data with
  | none => value
  | some (h, m) => pad2 h ++ ":" ++ pad2 m

/-- `re.fullmatch(r"\d{2}:\d{2}", s)`. -/
def isFullHHMM (s : String) : Bool :=
  match s.data with
  | [a, b, c, d, e] => isDigitChar a && isDigitChar b && (c == ':') && isDigitChar d && isDigitChar e
  | _ => false

/-- `prayer_api.py` — `_require_time_field`: reject a missing or non-string
field, normalize, and reject a normalized value that is not `\d{2}:\d{2}`.
Errors are `PrayerApiError` messages. -/
def _require_time_field (payload : List (String × Json)) (key : String) :
    Except String String :=
  match pyDictGet payload key with
  | some (.str raw) =>
    let hhmm := format_time_to_hhmm raw
    if isFullHHMM hhmm then .ok hhmm else .error ("Invalid time format for " ++ key)
  | _ => .error ("Missing time field: " ++ key)

/-- `prayer_api.py` — `is_turkiye_location`: ISO2 code match, or the free-text
country name (stripped, lowercased) being one of the two spellings in the
source's set literal.  The first member carries the source file's mojibake
`tÃ¼rkiye` verbatim; since it contains the uppercase letter `Ã` it can never
equal a lowercased string, so only the second member is reachable. -/
def is_turkiye_location (location : Location) : Bool :=
  if pyUpper location.countryCode = TURKEY_COUNTRY_CODE then true
  else
    let country := pyLower (pyStrip location.country)
    country = "tÃ¼rkiye" || country = "turkiye"

/-- `prayer_api.py` — `resolve_prayer_source`. -/
def resolve_prayer_source (location : Location) (source : PrayerSource) : PrayerSource :=
  if is_turkiye_location location then source else .mwl

/-- `prayer_api.py` — the `PrayerTimes(...)` construction in
`_fetch_prayer_times_from_diyanet`, from the matched day's entry: the six
Diyanet field names, each through `_require_time_field`, failing on the first
bad field. -/
def diyanetTimesFromEntry (entry : List (String × Json)) : Except String PrayerTimes := do
  let f ← _require_time_field entry "Imsak"
  let s ← _require_time_field entry "Gunes"
  let d ← _require_time_field entry "Ogle"
  let a ← _require_time_field entry "Ikindi"
  let m ← _require_time_field entry "Aksam"
  let i ← _require_time_field entry "Yatsi"
  return ⟨f, s, d, a, m, i⟩

/-- `prayer_api.py` — the `PrayerTimes(...)` construction in
`_fetch_prayer_times_from_aladhan`, from the `data.timings` object. -/
def aladhanTimesFromTimings (timings : List (String × Json)) : Except String PrayerTimes := do
  let f ← _require_time_field timings "Fajr"
  let s ← _require_time_field timings "Sunrise"
  let d ← _require_time_field timings "Dhuhr"
  let a ← _require_time_field timings "Asr"
  let m ← _require_time_field timings "Maghrib"
  let i ← _require_time_field timings "Isha"
  return ⟨f, s, d, a, m, i⟩

/-- `prayer_api.py` — `PrayerFetchResult`.  `time_zone` holds the Python value
of the field (a string, or `None` modelled as `none`; a stale cache entry
passes its raw `time_zone` value through). -/
structure PrayerFetchResult where
  times : PrayerTimes
  tomorrow_fajr : String
  time_zone : Option Json
  requested_source : PrayerSource
  resolved_source : PrayerSource

/-- `prayer_api.py` — `fetch_prayer_bundle`.  The `upstream` argument is the
outcome of the provider-adapter path inside the `try` block (district-id
resolution plus the two upstream calls for the resolved source): either the
fetched `(times, tomorrow_fajr, time_zone)` triple — with `time_zone` the fixed
Diyanet zone or AlAdhan's reported zone — or the message of the raised
`PrayerApiError`.  Returns the result together with the cache file after the
call. -/
def fetch_prayer_bundle (clk : Clock) (store : CacheFile) (location : Location)
    (source : PrayerSource)
    (upstream : Except String (PrayerTimes × String × Option String)) :
    Except String (PrayerFetchResult × CacheFile) :=
  let resolved_source := resolve_prayer_source location source
  match get_fresh_cached_bundle clk store location resolved_source with
  | some fresh_cached =>
    .ok ({ times := fresh_cached.times, tomorrow_fajr := fresh_cached.tomorrow_fajr,
           time_zone := fresh_cached.time_zone, requested_source := source,
           resolved_source := resolved_source }, store)
  | none =>
    match upstream with
    | .ok (times, tomorrow_fajr, time_zone) =>
      let store2 := set_cached_bundle clk store location resolved_source times
        tomorrow_fajr time_zone
      .ok ({ times := times, tomorrow_fajr := tomorrow_fajr,
             time_zone := time_zone.map .str, requested_source := source,
             resolved_source := resolved_source }, store2)
    | .error e =>
      match get_stale_cached_bundle store location resolved_source with
      | some stale_cached =>
        .ok ({ times := stale_cached.times, tomorrow_fajr := stale_cached.tomorrow_fajr,
               time_zone := stale_cached.time_zone, requested_source := source,
               resolved_source := resolved_source }, store)
      | none => .error e

/-! ## Prayer clock (`prayer_logic.py`) -/

/-- A fixed-offset model of an aware `datetime`: a calendar-day index and the
milliseconds elapsed within that day. -/
structure Dt where
  day : Int
  msOfDay : Int
deriving DecidableEq

/-- Total milliseconds, the order in which datetimes compare and subtract. -/
def Dt.toMs (d : Dt) : Int := d.day * 86400000 + d.msOfDay

/-- `prayer_logic.py` — `PrayerTimePoint`. -/
structure PrayerTimePoint where
  name : PrayerName
  time : String
  timestamp : Dt
deriving DecidableEq

/-- `prayer_logic.py` — `CurrentPrayerInfo`. -/
structure CurrentPrayerInfo where
  current_prayer : Option PrayerName
  next_prayer : PrayerName
  next_prayer_time : String
  time_until_next_ms : Int
  is_after_isha : Bool
deriving DecidableEq

/-- Python `str.split(":")` on the underlying characters. -/
def splitOnColon : List Char → List (List Char)
  | [] => [[]]
  | c :: rest =>
    if c = ':' then [] :: splitOnColon rest
    else
      match splitOnColon rest with
      | [] => [[c]]
      | part :: parts => (c :: part) :: parts

/-- Python `int()` on the decimal numerals the prayer clock meets: a nonempty
digit string; anything else raises ValueError. -/
def pyInt? (cs : List Char) : Option Nat :=
  if cs.isEmpty then none
  else if cs.all isDigitChar then some (cs.foldl (fun a c => 10 * a + digitVal c) 0)
  else none

/-- `[int(part) for part in time_str.split(":")[:2]]` unpacked into two values:
fails (ValueError) when there are fewer than two parts or a part is not a
decimal numeral. -/
def parseHM (s : String) : Option (Nat × Nat) :=
  match (splitOnColon s.data).take 2 with
  | [a, b] => do
    let h ← pyInt? a
    let m ← pyInt? b
    some (h, m)
  | _ => none

/-- `prayer_logic.py` — `time_string_to_datetime`: attach `HH:MM` to the base
date, zeroing seconds and microseconds.  `datetime.replace` raises on an hour
above 23 or a minute above 59. -/
def time_string_to_datetime (time_str : String) (base_date : Dt) : Option Dt := do
  let (h, m) ← parseHM time_str
  if h ≤ 23 && m ≤ 59 then
    some { day := base_date.day, msOfDay := ((60 * h + m : Nat) : Int) * 60000 }
  else none

/-- `prayer_logic.py` — `get_prayer_times_array`: the six points in
`PRAYER_NAMES` order; a parse failure anywhere raises. -/
def get_prayer_times_array (prayer_times : PrayerTimes) (base_date : Dt) :
    Option (List PrayerTimePoint) :=
  PRAYER_NAMES.mapM (fun n => do
    let ts ← time_string_to_datetime (prayer_times.get n) base_date
    some { name := n, time := prayer_times.get n, timestamp := ts })

/-- The backward loop `for i in range(len(prayers) - 1, -1, -1)`: the latest
(highest-index) point whose timestamp is `≤ now`, together with its immediate
successor when it has one. -/
def scanBackward (now : Dt) : List PrayerTimePoint →
    Option (PrayerTimePoint × Option PrayerTimePoint)
  | [] => none
  | p :: rest =>
    match scanBackward now rest with
    | some r => some r
    | none => if p.timestamp.toMs ≤ now.toMs then some (p, rest.head?) else none

/-- Python `a or b` for an optional string argument defaulting to `None` (an
empty string is falsy). -/
def pyOrElse (a : Option String) (b : String) : String :=
  match a with
  | some s => if s = "" then b else s
  | none => b

/-- `prayer_logic.py` — `get_current_prayer_info`.  `now` is the already-zoned
current instant (`get_time_zone_now`).  In the source the prayer list always
has six entries, so `prayers[0]` in the before-Fajr branch never faults; the
model reads it with `head?`. -/
def get_current_prayer_info (prayer_times : PrayerTimes) (tomorrow_fajr : Option String)
    (now : Dt) : Option CurrentPrayerInfo := do
  let prayers ← get_prayer_times_array prayer_times now
  match scanBackward now prayers with
  | some (cur, some nxt) =>
    some { current_prayer := some cur.name, next_prayer := nxt.name,
           next_prayer_time := nxt.time,
           time_until_next_ms := max 0 (nxt.timestamp.toMs - now.toMs),
           is_after_isha := false }
  | some (cur, none) => do
    let tomorrow : Dt := { day := now.day + 1, msOfDay := now.msOfDay }
    let next_prayer_time := pyOrElse tomorrow_fajr prayer_times.Fajr
    let tomorrow_fajr_dt ← time_string_to_datetime next_prayer_time tomorrow
    some { current_prayer := some cur.name, next_prayer := .Fajr,
           next_prayer_time := next_prayer_time,
           time_until_next_ms := max 0 (tomorrow_fajr_dt.toMs - now.toMs),
           is_after_isha := true }
  | none => do
    let first ← prayers.head?
    some { current_prayer := some .Isha, next_prayer := .Fajr,
           next_prayer_time := prayer_times.Fajr,
           time_until_next_ms := max 0 (first.timestamp.toMs - now.toMs),
           is_after_isha := false }

/-- `prayer_logic.py` — `format_countdown`.  The guard makes the remaining
arithmetic operate on a positive count, where Python floor division agrees with
natural-number division. -/
def format_countdown (ms : Int) : String :=
  if ms ≤ 0 then "00:00:00"
  else
    let totalSeconds := ms.toNat / 1000
    let hours := totalSeconds / 3600
    let minutes := (totalSeconds % 3600) / 60
    let seconds := totalSeconds % 60
    pad2 hours ++ ":" ++ pad2 minutes ++ ":" ++ pad2 seconds

/-! ## Specification-side notions used by the claims -/

/-- Claim C3's "H:MM or HH:MM substring": a one-or-two-digit hour, a colon and
a two-digit minute occur as a substring of `cs` starting at position `p`, with
numeric value `(h, m)`. -/
def hhmmOccursAt (cs : List Char) (p h m : Nat) : Prop :=
  ∃ pre ds m1 m2 rest,
    cs = pre ++ ds ++ ':' :: m1 :: m2 :: rest ∧ pre.length = p ∧
    (ds.length = 1 ∨ ds.length = 2) ∧ (∀ c ∈ ds, isDigitChar c = true) ∧
    isDigitChar m1 = true ∧ isDigitChar m2 = true ∧
    h = ds.foldl (fun a c => 10 * a + digitVal c) 0 ∧
    m = 10 * digitVal m1 + digitVal m2

/-- Claim C9's "canonical 24-hour HH:MM string": two-digit hour 00–23, colon,
two-digit minute 00–59. -/
def canonicalHHMM (s : String) : Bool :=
  match s.data with
  | [a, b, c, d, e] =>
    isDigitChar a && isDigitChar b && (c == ':') && isDigitChar d && isDigitChar e &&
      decide (10 * digitVal a + digitVal b < 24) && decide (10 * digitVal d + digitVal e < 60)
  | _ => false

/-- Claim C5's freshness date, written as the claim states it: "today"
computed in the entry's recorded timezone when that is present and a valid
zone name; else in the regional provider's fixed timezone when the source is
the regional one; else as the local system date. -/
def expectedDateSpec (clk : Clock) (tzField : Option Json) (source : PrayerSource) : String :=
  match tzField with
  | some (.str z) =>
    if clk.zoneValid z then clk.dateInZone z
    else if source = .diyanet then clk.dateInZone DIYANET_TIME_ZONE else clk.dateLocal
  | _ => if source = .diyanet then clk.dateInZone DIYANET_TIME_ZONE else clk.dateLocal

/-- The exact shape conditions under which `PrayerTimes.from_dict` rejects a
stored `times` value: not a JSON object, or missing one of the six prayer
keys. -/
def timesRejected : Json → Bool
  | .obj ts0 =>
    let ts := pyDict ts0
    (pyDictGet ts "Fajr").isNone || (pyDictGet ts "Sunrise").isNone ||
    (pyDictGet ts "Dhuhr").isNone || (pyDictGet ts "Asr").isNone ||
    (pyDictGet ts "Maghrib").isNone || (pyDictGet ts "Isha").isNone
  | _ => true

/-- The exact shape conditions under which `_parse_cached_entry` rejects a
stored entry: not a JSON object, a missing required key (`times`,
`tomorrow_fajr`, `date`, `fetched_at`), or a `times` value that
`PrayerTimes.from_dict` rejects. -/
def entryRejected (j : Json) : Bool :=
  match j with
  | .obj fs0 =>
    let fs := pyDict fs0
    (pyDictGet fs "times").isNone || (pyDictGet fs "tomorrow_fajr").isNone ||
    (pyDictGet fs "date").isNone || (pyDictGet fs "fetched_at").isNone ||
    (match pyDictGet fs "times" with
     | some tj => timesRejected tj
     | none => true)
  | _ => true

/-- Whether a JSON value is an object. -/
def jsonIsObj : Json → Bool
  | .obj _ => true
  | _ => false

/-- A time string the prayer clock accepts: `int(...)`-parsable hour and
minute parts within `datetime.replace` bounds.  Every canonical `HH:MM`
string is of this form. -/
def wellFormedTime (s : String) : Bool :=
  match parseHM s with
  | some (h, m) => h ≤ 23 && m ≤ 59
  | none => false

/-- The minute-of-day a time string denotes (0 when unparsable). -/
def minutesOf (s : String) : Nat :=
  match parseHM s with
  | some (h, m) => 60 * h + m
  | none => 0

/-- Position of a prayer in the fixed `PRAYER_NAMES` order. -/
def prayerIdx : PrayerName → Nat
  | .Fajr => 0
  | .Sunrise => 1
  | .Dhuhr => 2
  | .Asr => 3
  | .Maghrib => 4
  | .Isha => 5

/-- Today's timestamp of prayer `n` on `now`'s calendar day. -/
def todayTs (pt : PrayerTimes) (now : Dt) (n : PrayerName) : Dt :=
  { day := now.day, msOfDay := ((minutesOf (pt.get n) : Nat) : Int) * 60000 }

/-- `now` is at or past today's time of prayer `n`. -/
def nowAtOrPast (pt : PrayerTimes) (now : Dt) (n : PrayerName) : Prop :=
  (todayTs pt now n).toMs ≤ now.toMs

/-- The six times are in chronological order across the day. -/
def sortedSix (pt : PrayerTimes) : Prop :=
  minutesOf pt.Fajr ≤ minutesOf pt.Sunrise ∧
  minutesOf pt.Sunrise ≤ minutesOf pt.Dhuhr ∧
  minutesOf pt.Dhuhr ≤ minutesOf pt.Asr ∧
  minutesOf pt.Asr ≤ minutesOf pt.Maghrib ∧
  minutesOf pt.Maghrib ≤ minutesOf pt.Isha

/-! ## Dictionary lemmas -/

/-- The key list of a dict. -/
def dKeys (d : List (String × Json)) : List String := d.map Prod.fst

theorem dKeys_nil : dKeys [] = [] := rfl

theorem dKeys_cons (k : String) (v : Json) (d : List (String × Json)) :
    dKeys ((k, v) :: d) = k :: dKeys d := rfl

theorem pyDictGet_insert_self (d : List (String × Json)) (k : String) (v : Json) :
    pyDictGet (pyDictInsert d k v) k = some v := by
  induction d with
  | nil => simp [pyDictInsert, pyDictGet]
  | cons kv rest ih =>
    obtain ⟨k', v'⟩ := kv
    by_cases h : k' = k
    · simp [pyDictInsert, pyDictGet, h]
    · simp [pyDictInsert, pyDictGet, h, ih]

theorem pyDictGet_insert_ne (d : List (String × Json)) (k k' : String) (v : Json)
    (h : k' ≠ k) : pyDictGet (pyDictInsert d k v) k' = pyDictGet d k' := by
  induction d with
  | nil =>
    simp only [pyDictInsert, pyDictGet]
    rw [if_neg (Ne.symm h)]
  | cons kv rest ih =>
    obtain ⟨k₀, v₀⟩ := kv
    by_cases h0 : k₀ = k
    · subst h0
      simp only [pyDictInsert, if_pos rfl, pyDictGet]
      rw [if_neg (Ne.symm h), if_neg (Ne.symm h)]
    · simp only [pyDictInsert, if_neg h0, pyDictGet]
      by_cases h1 : k₀ = k'
      · simp [h1]
      · simp [h1, ih]

theorem dKeys_pyDictInsert (d : List (String × Json)) (k : String) (v : Json) :
    dKeys (pyDictInsert d k v) = if k ∈ dKeys d then dKeys d else dKeys d ++ [k] := by
  induction d with
  | nil => simp [pyDictInsert, dKeys_nil, dKeys_cons]
  | cons kv rest ih =>
    obtain ⟨k', v'⟩ := kv
    by_cases h : k' = k
    · subst h
      simp [pyDictInsert, dKeys_cons]
    · by_cases h2 : k ∈ dKeys rest
      · rw [show pyDictInsert ((k', v') :: rest) k v = (k', v') :: pyDictInsert rest k v from
          by simp [pyDictInsert, h]]
        rw [dKeys_cons, dKeys_cons, ih, if_pos h2,
          if_pos (by simp [List.mem_cons, h2])]
      · rw [show pyDictInsert ((k', v') :: rest) k v = (k', v') :: pyDictInsert rest k v from
          by simp [pyDictInsert, h]]
        rw [dKeys_cons, dKeys_cons, ih, if_neg h2,
          if_neg (by simp [List.mem_cons, h2, Ne.symm h])]
        simp

theorem nodup_dKeys_pyDictInsert (d : List (String × Json)) (k : String) (v : Json)
    (h : (dKeys d).Nodup) : (dKeys (pyDictInsert d k v)).Nodup := by
  rw [dKeys_pyDictInsert]
  by_cases hm : k ∈ dKeys d
  · simpa [hm] using h
  · simp only [if_neg hm]
    simpa [List.nodup_append] using ⟨h, hm⟩

theorem pyDictInsert_of_not_mem (d : List (String × Json)) (k : String) (v : Json)
    (h : k ∉ dKeys d) : pyDictInsert d k v = d ++ [(k, v)] := by
  induction d with
  | nil => simp [pyDictInsert]
  | cons kv rest ih =>
    obtain ⟨k', v'⟩ := kv
    rw [dKeys_cons, List.mem_cons] at h
    push_neg at h
    simp only [pyDictInsert, if_neg (Ne.symm h.1), List.cons_append]
    rw [ih h.2]

theorem pyDict_foldl_of_nodup (l : List (String × Json)) :
    ∀ acc : List (String × Json), (dKeys acc).Nodup →
      (∀ k ∈ dKeys l, k ∉ dKeys acc) → (dKeys l).Nodup →
      l.foldl (fun acc kv => pyDictInsert acc kv.1 kv.2) acc = acc ++ l := by
  induction l with
  | nil => intro acc _ _ _; simp
  | cons kv rest ih =>
    intro acc hacc hdisj hl
    obtain ⟨k, v⟩ := kv
    rw [dKeys_cons] at hdisj hl
    have hknotacc : k ∉ dKeys acc := hdisj k (List.mem_cons_self _ _)
    have hkrest : k ∉ dKeys rest := (List.nodup_cons.mp hl).1
    have hrest : (dKeys rest).Nodup := (List.nodup_cons.mp hl).2
    simp only [List.foldl_cons]
    rw [pyDictInsert_of_not_mem acc k v hknotacc]
    rw [ih (acc ++ [(k, v)])
      (by
        have : dKeys (acc ++ [(k, v)]) = dKeys acc ++ [k] := by
          simp [dKeys]
        rw [this]
        simpa [List.nodup_append] using ⟨hacc, hknotacc⟩)
      (by
        intro k' hk'
        have h1 : k' ∉ dKeys acc := hdisj k' (List.mem_cons_of_mem _ hk')
        have h2 : k' ≠ k := fun hh => hkrest (hh ▸ hk')
        have : dKeys (acc ++ [(k, v)]) = dKeys acc ++ [k] := by
          simp [dKeys]
        rw [this]
        simp [List.mem_append, h1, h2])
      hrest]
    simp

theorem pyDict_eq_self_of_nodup (l : List (String × Json)) (h : (dKeys l).Nodup) :
    pyDict l = l := by
  simpa using pyDict_foldl_of_nodup l [] (by simp [dKeys_nil]) (by simp [dKeys_nil]) h

theorem nodup_dKeys_pyDict_foldl (l : List (String × Json)) :
    ∀ acc : List (String × Json), (dKeys acc).Nodup →
      (dKeys (l.foldl (fun acc kv => pyDictInsert acc kv.1 kv.2) acc)).Nodup := by
  induction l with
  | nil => intro acc hacc; simpa
  | cons kv rest ih =>
    intro acc hacc
    simp only [List.foldl_cons]
    exact ih _ (nodup_dKeys_pyDictInsert acc kv.1 kv.2 hacc)

theorem nodup_dKeys_pyDict (l : List (String × Json)) : (dKeys (pyDict l)).Nodup :=
  nodup_dKeys_pyDict_foldl l [] (by simp [dKeys_nil])

theorem nodup_dKeys_safe_read (store : CacheFile) :
    (dKeys (_safe_read_cache store)).Nodup := by
  match store with
  | .missing | .unreadable | .invalidJson => simp [_safe_read_cache, dKeys_nil]
  | .content j =>
    match j with
    | .obj fs => exact nodup_dKeys_pyDict fs
    | .null | .bool _ | .num _ | .str _ | .arr _ => simp [_safe_read_cache, dKeys_nil]

/-- Reading back the store written by `set_cached_bundle` yields the previous
dict with exactly the one key bound to the freshly written entry. -/
theorem safe_read_after_set (clk : Clock) (store : CacheFile) (location : Location)
    (source : PrayerSource) (times : PrayerTimes) (tomorrow_fajr : String)
    (time_zone : Option String) :
    _safe_read_cache (set_cached_bundle clk store location source times tomorrow_fajr time_zone) =
      pyDictInsert (_safe_read_cache store) (_cache_key location source)
        (.obj [("times", .obj times.to_dict),
               ("tomorrow_fajr", .str tomorrow_fajr),
               ("time_zone", match time_zone with | some z => .str z | none => .null),
               ("date", .str (_date_string_for_zone clk (time_zone.map .str) source)),
               ("fetched_at", .str clk.fetchedAt)]) := by
  show _safe_read_cache (.content (.obj _)) = _
  show pyDict _ = _
  exact pyDict_eq_self_of_nodup _
    (nodup_dKeys_pyDictInsert _ _ _ (nodup_dKeys_safe_read store))

/-- C10: `set_cached_bundle` is a whole-file read-modify-write that changes
only the written `(location, source)` key — the lookup of every other key in
the persisted store is exactly what it was before the write. -/
theorem cache_put_frame (clk : Clock) (store : CacheFile) (location : Location)
    (source : PrayerSource) (times : PrayerTimes) (tomorrow_fajr : String)
    (time_zone : Option String) (k : String) (hk : k ≠ _cache_key location source) :
    pyDictGet (_safe_read_cache
        (set_cached_bundle clk store location source times tomorrow_fajr time_zone)) k =
      pyDictGet (_safe_read_cache store) k := by
  rw [safe_read_after_set]
  exact pyDictGet_insert_ne _ _ _ _ hk

/-- Witness for C10 at a concrete store holding one other key. -/
theorem cache_put_frame_witness :
    "other" ≠ _cache_key ⟨"A", "B", "US", 0, 0, none, none⟩ PrayerSource.mwl ∧
    pyDictGet (_safe_read_cache
        (set_cached_bundle ⟨fun _ => true, fun _ => "2026-10-12", "2026-10-12", "T"⟩
          (.content (.obj [("other", .str "keep")]))
          ⟨"A", "B", "US", 0, 0, none, none⟩ PrayerSource.mwl
          ⟨"05:00", "06:30", "12:15", "15:45", "18:20", "19:45"⟩ "05:01" none)) "other" =
      pyDictGet (_safe_read_cache (.content (.obj [("other", .str "keep")]))) "other" :=
  ⟨by decide,
   cache_put_frame ⟨fun _ => true, fun _ => "2026-10-12", "2026-10-12", "T"⟩
     (.content (.obj [("other", .str "keep")]))
     ⟨"A", "B", "US", 0, 0, none, none⟩ PrayerSource.mwl
     ⟨"05:00", "06:30", "12:15", "15:45", "18:20", "19:45"⟩ "05:01" none
     "other" (by decide)⟩

/-- C4: writing a bundle and immediately reading it fresh under the same key,
with the same clock (the same calendar day in the bundle's timezone), returns
a bundle whose six time fields, tomorrow-Fajr and timezone are byte-identical
to what was written. -/
theorem cache_put_then_getFresh_roundtrip (clk : Clock) (store : CacheFile)
    (location : Location) (source : PrayerSource) (times : PrayerTimes)
    (tomorrow_fajr : String) (time_zone : Option String) :
    get_fresh_cached_bundle clk
        (set_cached_bundle clk store location source times tomorrow_fajr time_zone)
        location source =
      some { times := times, tomorrow_fajr := tomorrow_fajr,
             time_zone := time_zone.map Json.str,
             date := _date_string_for_zone clk (time_zone.map Json.str) source,
             fetched_at := clk.fetchedAt } := by
  have hparse : _parse_cached_entry (some (.obj
      [("times", .obj times.to_dict),
       ("tomorrow_fajr", .str tomorrow_fajr),
       ("time_zone", match time_zone with | some z => .str z | none => .null),
       ("date", .str (_date_string_for_zone clk (time_zone.map .str) source)),
       ("fetched_at", .str clk.fetchedAt)])) =
      some { times := times, tomorrow_fajr := tomorrow_fajr,
             time_zone := time_zone.map Json.str,
             date := _date_string_for_zone clk (time_zone.map Json.str) source,
             fetched_at := clk.fetchedAt } := by
    cases time_zone <;> rfl
  simp only [get_fresh_cached_bundle]
  rw [safe_read_after_set, pyDictGet_insert_self, hparse]
  simp

/-- C1: on a fresh-cache miss, if the provider-adapter path raises a fetch
error, the orchestrator returns the stale bundle stored under the resolved
`(location, resolved-source)` key — its times, tomorrow-Fajr and timezone —
when one exists, and re-raises the original error unchanged when none does. -/
theorem fetch_bundle_stale_fallback (clk : Clock) (store : CacheFile) (location : Location)
    (source : PrayerSource) (e : String)
    (hfresh : get_fresh_cached_bundle clk store location
      (resolve_prayer_source location source) = none) :
    (∀ st, get_stale_cached_bundle store location (resolve_prayer_source location source) =
        some st →
      fetch_prayer_bundle clk store location source (.error e) =
        .ok ({ times := st.times, tomorrow_fajr := st.tomorrow_fajr,
               time_zone := st.time_zone, requested_source := source,
               resolved_source := resolve_prayer_source location source }, store)) ∧
    (get_stale_cached_bundle store location (resolve_prayer_source location source) = none →
      fetch_prayer_bundle clk store location source (.error e) = .error e) := by
  constructor
  · intro st hstale
    simp only [fetch_prayer_bundle, hfresh, hstale]
  · intro hstale
    simp only [fetch_prayer_bundle, hfresh, hstale]

/-- Witness for C1 at a concrete store holding a stale (yesterday-dated)
entry, and at the empty store. -/
theorem fetch_bundle_stale_fallback_witness :
    fetch_prayer_bundle ⟨fun _ => true, fun _ => "2026-10-12", "2026-10-12", "T"⟩
        (.content (.obj [("A-US-0.00000-0.00000-mwl", .obj
          [("times", .obj [("Fajr", .str "05:00"), ("Sunrise", .str "06:30"),
                           ("Dhuhr", .str "12:15"), ("Asr", .str "15:45"),
                           ("Maghrib", .str "18:20"), ("Isha", .str "19:45")]),
           ("tomorrow_fajr", .str "05:01"), ("time_zone", .null),
           ("date", .str "2026-10-11"), ("fetched_at", .str "x")])]))
        ⟨"A", "B", "US", 0, 0, none, none⟩ PrayerSource.mwl (.error "upstream down") =
      .ok ({ times := ⟨"05:00", "06:30", "12:15", "15:45", "18:20", "19:45"⟩,
             tomorrow_fajr := "05:01", time_zone := none,
             requested_source := PrayerSource.mwl, resolved_source := PrayerSource.mwl },
           (.content (.obj [("A-US-0.00000-0.00000-mwl", .obj
             [("times", .obj [("Fajr", .str "05:00"), ("Sunrise", .str "06:30"),
                              ("Dhuhr", .str "12:15"), ("Asr", .str "15:45"),
                              ("Maghrib", .str "18:20"), ("Isha", .str "19:45")]),
              ("tomorrow_fajr", .str "05:01"), ("time_zone", .null),
              ("date", .str "2026-10-11"), ("fetched_at", .str "x")])]))) :=
  (fetch_bundle_stale_fallback ⟨fun _ => true, fun _ => "2026-10-12", "2026-10-12", "T"⟩
      (.content (.obj [("A-US-0.00000-0.00000-mwl", .obj
        [("times", .obj [("Fajr", .str "05:00"), ("Sunrise", .str "06:30"),
                         ("Dhuhr", .str "12:15"), ("Asr", .str "15:45"),
                         ("Maghrib", .str "18:20"), ("Isha", .str "19:45")]),
         ("tomorrow_fajr", .str "05:01"), ("time_zone", .null),
         ("date", .str "2026-10-11"), ("fetched_at", .str "x")])]))
      ⟨"A", "B", "US", 0, 0, none, none⟩ PrayerSource.mwl "upstream down" rfl).1 _ rfl

/-- C2 counterexample: a location whose country-code is not "TR" but whose
free-text country name is "turkiye" keeps the requested source — the resolved
source is not forced to "mwl". -/
theorem resolve_source_countrycode_cex :
    pyUpper (Location.mk "A" "turkiye" "US" 0 0 none none).countryCode ≠ "TR" ∧
    resolve_prayer_source ⟨"A", "turkiye", "US", 0, 0, none, none⟩ .diyanet =
      PrayerSource.diyanet ∧
    resolve_prayer_source ⟨"A", "turkiye", "US", 0, 0, none, none⟩ .diyanet ≠
      PrayerSource.mwl :=
  ⟨by decide, rfl, by decide⟩

/-- `Char.ofNat` is left-inverted by `Char.toNat` on the valid range below
the surrogates. -/
theorem char_toNat_ofNat_lt (n : Nat) (h : n < 55296) : (Char.ofNat n).toNat = n := by
  have hv : n.isValidChar := Or.inl h
  rw [Char.ofNat, dif_pos hv]
  rfl

/-- The lowercase mapping never produces the uppercase letter `Ã` (U+00C3):
letters that map shift into `a`–`z` (97–122) or `à`–`þ` (224–254), and `Ã`
itself is in the mapped range, so it never survives unchanged. -/
theorem pyLowerChar_ne_Atilde (c : Char) : pyLowerChar c ≠ 'Ã' := by
  have h195 : ('Ã' : Char).toNat = 195 := by decide
  unfold pyLowerChar
  split_ifs with h1 h2
  · intro he
    have hn := congrArg Char.toNat he
    rw [char_toNat_ofNat_lt _ (by omega), h195] at hn
    omega
  · intro he
    have hn := congrArg Char.toNat he
    rw [char_toNat_ofNat_lt _ (by omega), h195] at hn
    omega
  · intro he
    subst he
    exact h2 (by decide)

/-- No lowered string equals the mojibake spelling in the source's set
literal: that spelling contains the uppercase letter `Ã`. -/
theorem pyLower_ne_turkiye_mojibake (s : String) : pyLower s ≠ "tÃ¼rkiye" := by
  intro h
  have hd : s.data.map pyLowerChar = "tÃ¼rkiye".data := congrArg String.data h
  have hmem : 'Ã' ∈ s.data.map pyLowerChar := by
    rw [hd]
    decide
  obtain ⟨c, _, hc⟩ := List.mem_map.mp hmem
  exact pyLowerChar_ne_Atilde c hc

/-- C2 (amended): the requested source is honored exactly when the
country-code case-insensitively matches "TR" or the stripped, lowercased
country name equals "turkiye"; in every other case the resolved source is the
fallback "mwl".  (The set literal's other member, the mojibake `tÃ¼rkiye`,
contains an uppercase letter and can never equal a lowercased string, so it
is unreachable — see `pyLower_ne_turkiye_mojibake`.) -/
theorem resolve_source_turkiye_rule (location : Location) (source : PrayerSource) :
    ((pyUpper location.countryCode = "TR" ∨
      pyLower (pyStrip location.country) = "turkiye") →
      resolve_prayer_source location source = source) ∧
    (pyUpper location.countryCode ≠ "TR" →
      pyLower (pyStrip location.country) ≠ "turkiye" →
      resolve_prayer_source location source = .mwl) := by
  constructor
  · intro h
    have ht : is_turkiye_location location = true := by
      unfold is_turkiye_location TURKEY_COUNTRY_CODE
      rcases h with h | h <;> simp [h]
    simp [resolve_prayer_source, ht]
  · intro h1 h2
    have ht : is_turkiye_location location = false := by
      unfold is_turkiye_location TURKEY_COUNTRY_CODE
      simp [h1, h2, pyLower_ne_turkiye_mojibake (pyStrip location.country)]
    simp [resolve_prayer_source, ht]

/-- Witness for C2's amended rule at concrete locations on both sides. -/
theorem resolve_source_turkiye_rule_witness :
    resolve_prayer_source ⟨"NY", "United States", "US", 0, 0, none, none⟩ .diyanet =
      PrayerSource.mwl ∧
    resolve_prayer_source ⟨"Ankara", "X", "tr", 0, 0, none, none⟩ .diyanet =
      PrayerSource.diyanet :=
  ⟨(resolve_source_turkiye_rule ⟨"NY", "United States", "US", 0, 0, none, none⟩
      .diyanet).2 (by decide) (by decide),
   (resolve_source_turkiye_rule ⟨"Ankara", "X", "tr", 0, 0, none, none⟩
      .diyanet).1 (.inl (by decide))⟩

/-- C8: countdown formatting renders zero-padded `HH:MM:SS` from the floor of
the whole-second count; zero or negative input renders exactly "00:00:00",
and 3,661,000 ms renders exactly "01:01:01". -/
theorem format_countdown_rule :
    format_countdown 0 = "00:00:00" ∧
    format_countdown 3661000 = "01:01:01" ∧
    (∀ ms : Int, ms ≤ 0 → format_countdown ms = "00:00:00") ∧
    (∀ ms : Int, 0 < ms → ∃ h m s : Nat, m < 60 ∧ s < 60 ∧
      3600 * h + 60 * m + s = ms.toNat / 1000 ∧
      format_countdown ms = pad2 h ++ ":" ++ pad2 m ++ ":" ++ pad2 s) := by
  refine ⟨rfl, rfl, ?_, ?_⟩
  · intro ms h
    simp only [format_countdown, if_pos h]
  · intro ms h
    refine ⟨ms.toNat / 1000 / 3600, ms.toNat / 1000 % 3600 / 60, ms.toNat / 1000 % 60,
      by omega, by omega, by omega, ?_⟩
    simp only [format_countdown, if_neg (not_le.mpr h)]

/-- Witness for C8 at a negative input. -/
theorem format_countdown_rule_witness : format_countdown (-5) = "00:00:00" :=
  format_countdown_rule.2.2.1 (-5) (by decide)

/-- A field extracted by `_require_time_field` always has the `\d\d:\d\d`
shape that the `fullmatch` guard enforces. -/
theorem require_time_field_full (p : List (String × Json)) (k hh : String)
    (h : _require_time_field p k = .ok hh) : isFullHHMM hh = true := by
  simp only [_require_time_field] at h
  split at h
  · split at h
    · cases h
      assumption
    · cases h
  · cases h

/-- Inverting one bind step of an `Except` computation that succeeded. -/
theorem exceptBind_ok {α β : Type} (x : Except String α) (f : α → Except String β) (b : β)
    (h : (x >>= f) = .ok b) : ∃ a, x = .ok a ∧ f a = .ok b := by
  cases x with
  | error e => simp [Bind.bind, Except.bind] at h
  | ok a => exact ⟨a, rfl, by simpa [Bind.bind, Except.bind] using h⟩

/-- C9 counterexample: the AlAdhan adapter accepts a payload whose six time
fields are "99:99" and constructs a `PrayerTimes` from it, although "99:99"
is not a canonical 24-hour time (hour 00–23, minute 00–59). -/
theorem adapter_accepts_out_of_range_cex :
    aladhanTimesFromTimings
        [("Fajr", .str "99:99"), ("Sunrise", .str "99:99"), ("Dhuhr", .str "99:99"),
         ("Asr", .str "99:99"), ("Maghrib", .str "99:99"), ("Isha", .str "99:99")] =
      .ok ⟨"99:99", "99:99", "99:99", "99:99", "99:99", "99:99"⟩ ∧
    canonicalHHMM "99:99" = false :=
  ⟨rfl, rfl⟩

/-- C9 (amended): every `PrayerTimes` value constructed by either provider
adapter has all six fields present and each of the `\d\d:\d\d` shape (the
hour/minute numeric ranges are not validated). -/
theorem adapter_times_shape (entry timings : List (String × Json)) (t : PrayerTimes)
    (h : diyanetTimesFromEntry entry = .ok t ∨ aladhanTimesFromTimings timings = .ok t) :
    isFullHHMM t.Fajr = true ∧ isFullHHMM t.Sunrise = true ∧ isFullHHMM t.Dhuhr = true ∧
    isFullHHMM t.Asr = true ∧ isFullHHMM t.Maghrib = true ∧ isFullHHMM t.Isha = true := by
  rcases h with h | h
  · simp only [diyanetTimesFromEntry] at h
    obtain ⟨f, hf, h⟩ := exceptBind_ok _ _ _ h
    obtain ⟨s, hs, h⟩ := exceptBind_ok _ _ _ h
    obtain ⟨d, hd, h⟩ := exceptBind_ok _ _ _ h
    obtain ⟨a, ha, h⟩ := exceptBind_ok _ _ _ h
    obtain ⟨m, hm, h⟩ := exceptBind_ok _ _ _ h
    obtain ⟨i, hi, h⟩ := exceptBind_ok _ _ _ h
    simp only [pure, Except.pure] at h
    cases h
    exact ⟨require_time_field_full _ _ _ hf, require_time_field_full _ _ _ hs,
           require_time_field_full _ _ _ hd, require_time_field_full _ _ _ ha,
           require_time_field_full _ _ _ hm, require_time_field_full _ _ _ hi⟩
  · simp only [aladhanTimesFromTimings] at h
    obtain ⟨f, hf, h⟩ := exceptBind_ok _ _ _ h
    obtain ⟨s, hs, h⟩ := exceptBind_ok _ _ _ h
    obtain ⟨d, hd, h⟩ := exceptBind_ok _ _ _ h
    obtain ⟨a, ha, h⟩ := exceptBind_ok _ _ _ h
    obtain ⟨m, hm, h⟩ := exceptBind_ok _ _ _ h
    obtain ⟨i, hi, h⟩ := exceptBind_ok _ _ _ h
    simp only [pure, Except.pure] at h
    cases h
    exact ⟨require_time_field_full _ _ _ hf, require_time_field_full _ _ _ hs,
           require_time_field_full _ _ _ hd, require_time_field_full _ _ _ ha,
           require_time_field_full _ _ _ hm, require_time_field_full _ _ _ hi⟩

/-- Witness for C9's amended invariant on a concrete Diyanet payload. -/
theorem adapter_times_shape_witness :
    isFullHHMM (PrayerTimes.mk "05:07" "06:30" "12:15" "15:45" "18:20" "19:45").Fajr = true ∧
    isFullHHMM (PrayerTimes.mk "05:07" "06:30" "12:15" "15:45" "18:20" "19:45").Sunrise = true ∧
    isFullHHMM (PrayerTimes.mk "05:07" "06:30" "12:15" "15:45" "18:20" "19:45").Dhuhr = true ∧
    isFullHHMM (PrayerTimes.mk "05:07" "06:30" "12:15" "15:45" "18:20" "19:45").Asr = true ∧
    isFullHHMM (PrayerTimes.mk "05:07" "06:30" "12:15" "15:45" "18:20" "19:45").Maghrib = true ∧
    isFullHHMM (PrayerTimes.mk "05:07" "06:30" "12:15" "15:45" "18:20" "19:45").Isha = true :=
  adapter_times_shape
    [("Imsak", .str "5:07 (+03)"), ("Gunes", .str "06:30"), ("Ogle", .str "12:15"),
     ("Ikindi", .str "15:45"), ("Aksam", .str "18:20"), ("Yatsi", .str "19:45")]
    [] (PrayerTimes.mk "05:07" "06:30" "12:15" "15:45" "18:20" "19:45") (.inl rfl)

/-- The cache-side date computation agrees with claim C5's wording whenever
the empty string is not a valid zone name (as with real `ZoneInfo`). -/
theorem date_string_eq_spec (clk : Clock) (tzF : Option Json) (source : PrayerSource)
    (h0 : clk.zoneValid "" = false) :
    _date_string_for_zone clk tzF source = expectedDateSpec clk tzF source := by
  cases tzF with
  | none => rfl
  | some j =>
    cases j with
    | str z =>
      by_cases hz : z = ""
      · subst hz
        simp [_date_string_for_zone, expectedDateSpec, pyTruthy, h0]
      · by_cases hv : clk.zoneValid z <;>
          simp [_date_string_for_zone, expectedDateSpec, pyTruthy, hz, hv]
    | null => rfl
    | bool b => simp [_date_string_for_zone, expectedDateSpec, pyTruthy]
    | num n => simp [_date_string_for_zone, expectedDateSpec, pyTruthy]
    | arr xs => simp [_date_string_for_zone, expectedDateSpec, pyTruthy]
    | obj fs => simp [_date_string_for_zone, expectedDateSpec, pyTruthy]

/-- `PrayerTimes.from_dict` fails exactly on the `timesRejected` shapes. -/
theorem times_rejected_iff (tj : Json) :
    PrayerTimes.from_json tj = none ↔ timesRejected tj = true := by
  cases tj with
  | obj ts0 =>
    simp only [PrayerTimes.from_json, timesRejected]
    rcases h1 : pyDictGet (pyDict ts0) "Fajr" with _ | f <;>
      rcases h2 : pyDictGet (pyDict ts0) "Sunrise" with _ | s <;>
      rcases h3 : pyDictGet (pyDict ts0) "Dhuhr" with _ | d <;>
      rcases h4 : pyDictGet (pyDict ts0) "Asr" with _ | a <;>
      rcases h5 : pyDictGet (pyDict ts0) "Maghrib" with _ | m <;>
      rcases h6 : pyDictGet (pyDict ts0) "Isha" with _ | i <;>
      simp [h1, h2, h3, h4, h5, h6]
  | null => simp [PrayerTimes.from_json, timesRejected]
  | bool b => simp [PrayerTimes.from_json, timesRejected]
  | num n => simp [PrayerTimes.from_json, timesRejected]
  | str s => simp [PrayerTimes.from_json, timesRejected]
  | arr xs => simp [PrayerTimes.from_json, timesRejected]

/-- `_parse_cached_entry` fails exactly on the `entryRejected` shapes. -/
theorem parse_entry_none_iff (j : Json) :
    _parse_cached_entry (some j) = none ↔ entryRejected j = true := by
  cases j with
  | obj fs0 =>
    simp only [_parse_cached_entry, entryRejected]
    rcases h1 : pyDictGet (pyDict fs0) "times" with _ | tj
    · simp [h1]
    · rcases h2 : pyDictGet (pyDict fs0) "tomorrow_fajr" with _ | tf
      · simp [h1, h2]
      · rcases h3 : pyDictGet (pyDict fs0) "date" with _ | dj
        · simp [h1, h2, h3]
        · rcases h4 : pyDictGet (pyDict fs0) "fetched_at" with _ | fj
          · simp [h1, h2, h3, h4]
          · rcases h5 : PrayerTimes.from_json tj with _ | t
            · have htr := (times_rejected_iff tj).mp h5
              simp [h1, h2, h3, h4, h5, htr]
            · have htr : timesRejected tj = false := by
                rw [Bool.eq_false_iff]
                intro hb
                rw [← times_rejected_iff, h5] at hb
                cases hb
              simp [h1, h2, h3, h4, h5, htr]
  | null => simp [_parse_cached_entry, entryRejected]
  | bool b => simp [_parse_cached_entry, entryRejected]
  | num n => simp [_parse_cached_entry, entryRejected]
  | str s => simp [_parse_cached_entry, entryRejected]
  | arr xs => simp [_parse_cached_entry, entryRejected]

/-- C5: for a stored entry that parses, `getFresh` returns it exactly when its
stored date equals "today" computed, in priority order, in the entry's
recorded timezone when present and valid, else in the regional provider's
fixed timezone when the source is the regional one, else as the local system
date; otherwise it returns absent.  (The hypothesis on the empty zone name
mirrors `ZoneInfo`, which rejects `""`.) -/
theorem getFresh_date_rule (clk : Clock) (store : CacheFile) (location : Location)
    (source : PrayerSource) (e : CachedPrayerBundle)
    (h0 : clk.zoneValid "" = false)
    (hp : _parse_cached_entry
        (pyDictGet (_safe_read_cache store) (_cache_key location source)) = some e) :
    get_fresh_cached_bundle clk store location source =
      (if e.date = expectedDateSpec clk e.time_zone source then some e else none) := by
  simp only [get_fresh_cached_bundle, hp]
  rw [date_string_eq_spec clk e.time_zone source h0]

/-- Witness for C5 at a concrete parsed entry whose recorded zone is valid. -/
theorem getFresh_date_rule_witness :
    get_fresh_cached_bundle ⟨fun z => z != "", fun _ => "2026-10-12", "2026-10-12", "T"⟩
        (.content (.obj [("A-US-0.00000-0.00000-mwl", .obj
          [("times", .obj [("Fajr", .str "05:00"), ("Sunrise", .str "06:30"),
                           ("Dhuhr", .str "12:15"), ("Asr", .str "15:45"),
                           ("Maghrib", .str "18:20"), ("Isha", .str "19:45")]),
           ("tomorrow_fajr", .str "05:01"), ("time_zone", .str "Europe/Istanbul"),
           ("date", .str "2026-10-12"), ("fetched_at", .str "x")])]))
        ⟨"A", "B", "US", 0, 0, none, none⟩ PrayerSource.mwl =
      (if "2026-10-12" = expectedDateSpec
          ⟨fun z => z != "", fun _ => "2026-10-12", "2026-10-12", "T"⟩
          (some (.str "Europe/Istanbul")) PrayerSource.mwl
       then some ⟨⟨"05:00", "06:30", "12:15", "15:45", "18:20", "19:45"⟩, "05:01",
                  some (.str "Europe/Istanbul"), "2026-10-12", "x"⟩
       else none) :=
  getFresh_date_rule ⟨fun z => z != "", fun _ => "2026-10-12", "2026-10-12", "T"⟩
    (.content (.obj [("A-US-0.00000-0.00000-mwl", .obj
      [("times", .obj [("Fajr", .str "05:00"), ("Sunrise", .str "06:30"),
                       ("Dhuhr", .str "12:15"), ("Asr", .str "15:45"),
                       ("Maghrib", .str "18:20"), ("Isha", .str "19:45")]),
       ("tomorrow_fajr", .str "05:01"), ("time_zone", .str "Europe/Istanbul"),
       ("date", .str "2026-10-12"), ("fetched_at", .str "x")])]))
    ⟨"A", "B", "US", 0, 0, none, none⟩ PrayerSource.mwl
    ⟨⟨"05:00", "06:30", "12:15", "15:45", "18:20", "19:45"⟩, "05:01",
     some (.str "Europe/Istanbul"), "2026-10-12", "x"⟩ (by decide) rfl

/-- C6 counterexample: an entry whose `tomorrow_fajr` field is the number 42 —
a malformed field — still parses (the code coerces it with `str()`), so the
lookup for that key does not return absent. -/
theorem cache_malformed_field_cex :
    get_stale_cached_bundle
        (.content (.obj [("A-US-0.00000-0.00000-mwl", .obj
          [("times", .obj [("Fajr", .str "05:00"), ("Sunrise", .str "06:30"),
                           ("Dhuhr", .str "12:15"), ("Asr", .str "15:45"),
                           ("Maghrib", .str "18:20"), ("Isha", .str "19:45")]),
           ("tomorrow_fajr", .num 42), ("time_zone", .null),
           ("date", .str "2026-10-12"), ("fetched_at", .str "x")])]))
        ⟨"A", "B", "US", 0, 0, none, none⟩ PrayerSource.mwl =
      some ⟨⟨"05:00", "06:30", "12:15", "15:45", "18:20", "19:45"⟩, "42", none,
            "2026-10-12", "x"⟩ :=
  rfl

/-- C6 (amended): the cache readers are total — a missing, unreadable,
non-JSON or non-object store is treated as an empty map; an entry is rejected
(lookup absent) exactly when it is not an object, lacks a required field
(`times`, `tomorrow_fajr`, `date`, `fetched_at`), or its `times` value is not
an object carrying all six prayer keys (other present fields are coerced, not
rejected); and the lookup of a key depends only on that key's stored entry,
so one bad entry never affects the lookup of another key. -/
theorem cache_defensive_read :
    (∀ (clk : Clock) (location : Location) (source : PrayerSource),
      (get_fresh_cached_bundle clk .missing location source = none ∧
       get_stale_cached_bundle .missing location source = none) ∧
      (get_fresh_cached_bundle clk .unreadable location source = none ∧
       get_stale_cached_bundle .unreadable location source = none) ∧
      (get_fresh_cached_bundle clk .invalidJson location source = none ∧
       get_stale_cached_bundle .invalidJson location source = none) ∧
      (∀ j, jsonIsObj j = false →
        get_fresh_cached_bundle clk (.content j) location source = none ∧
        get_stale_cached_bundle (.content j) location source = none)) ∧
    (∀ j, _parse_cached_entry (some j) = none ↔ entryRejected j = true) ∧
    (∀ (clk : Clock) (store : CacheFile) (location : Location) (source : PrayerSource) (j : Json),
      pyDictGet (_safe_read_cache store) (_cache_key location source) = some j →
      entryRejected j = true →
      get_fresh_cached_bundle clk store location source = none ∧
      get_stale_cached_bundle store location source = none) ∧
    (∀ (clk : Clock) (store store2 : CacheFile) (location : Location) (source : PrayerSource),
      pyDictGet (_safe_read_cache store) (_cache_key location source) =
        pyDictGet (_safe_read_cache store2) (_cache_key location source) →
      get_fresh_cached_bundle clk store location source =
        get_fresh_cached_bundle clk store2 location source ∧
      get_stale_cached_bundle store location source =
        get_stale_cached_bundle store2 location source) := by
  refine ⟨?_, parse_entry_none_iff, ?_, ?_⟩
  · intro clk location source
    refine ⟨⟨rfl, rfl⟩, ⟨rfl, rfl⟩, ⟨rfl, rfl⟩, ?_⟩
    intro j hj
    cases j with
    | obj fs => simp [jsonIsObj] at hj
    | null => exact ⟨rfl, rfl⟩
    | bool b => exact ⟨rfl, rfl⟩
    | num n => exact ⟨rfl, rfl⟩
    | str s => exact ⟨rfl, rfl⟩
    | arr xs => exact ⟨rfl, rfl⟩
  · intro clk store location source j hget hrej
    have hp : _parse_cached_entry
        (pyDictGet (_safe_read_cache store) (_cache_key location source)) = none := by
      rw [hget]
      exact (parse_entry_none_iff j).mpr hrej
    constructor
    · simp only [get_fresh_cached_bundle, hp]
    · simp only [get_stale_cached_bundle, hp]
  · intro clk store store2 location source heq
    constructor
    · simp only [get_fresh_cached_bundle, heq]
    · simp only [get_stale_cached_bundle, heq]

/-- Witness for C6's amended reading rules at concrete stores. -/
theorem cache_defensive_read_witness :
    (get_fresh_cached_bundle ⟨fun _ => true, fun _ => "D", "D", "T"⟩ .missing
        ⟨"A", "B", "US", 0, 0, none, none⟩ PrayerSource.mwl = none ∧
     get_stale_cached_bundle .missing ⟨"A", "B", "US", 0, 0, none, none⟩
        PrayerSource.mwl = none) ∧
    (get_fresh_cached_bundle ⟨fun _ => true, fun _ => "D", "D", "T"⟩
        (.content (.obj [("A-US-0.00000-0.00000-mwl", .obj [("times", .null)])]))
        ⟨"A", "B", "US", 0, 0, none, none⟩ PrayerSource.mwl = none ∧
     get_stale_cached_bundle
        (.content (.obj [("A-US-0.00000-0.00000-mwl", .obj [("times", .null)])]))
        ⟨"A", "B", "US", 0, 0, none, none⟩ PrayerSource.mwl = none) :=
  ⟨(cache_defensive_read.1 ⟨fun _ => true, fun _ => "D", "D", "T"⟩
      ⟨"A", "B", "US", 0, 0, none, none⟩ PrayerSource.mwl).1,
   cache_defensive_read.2.2.1 ⟨fun _ => true, fun _ => "D", "D", "T"⟩
     (.content (.obj [("A-US-0.00000-0.00000-mwl", .obj [("times", .null)])]))
     ⟨"A", "B", "US", 0, 0, none, none⟩ PrayerSource.mwl
     (.obj [("times", .null)]) rfl rfl⟩

/-- A successful anchored match is an occurrence at position 0. -/
theorem matchAt_some_occurs (cs : List Char) (h m : Nat)
    (hm : matchAt cs = some (h, m)) : hhmmOccursAt cs 0 h m := by
  cases cs with
  | nil => exact absurd hm (by simp [matchAt])
  | cons a t =>
  cases t with
  | nil => exact absurd hm (by simp [matchAt])
  | cons b rest =>
  by_cases ha : isDigitChar a = true
  case neg => simp [matchAt, ha] at hm
  by_cases hb : isDigitChar b = true
  case pos =>
    rcases rest with _ | ⟨c1, rest1⟩
    · simp [matchAt, ha, hb] at hm
    rcases rest1 with _ | ⟨m1, rest2⟩
    · simp [matchAt, ha, hb] at hm
    rcases rest2 with _ | ⟨m2, rest3⟩
    · simp [matchAt, ha, hb] at hm
    by_cases hc : c1 = ':'
    case neg => simp [matchAt, ha, hb, hc] at hm
    subst hc
    by_cases h1 : isDigitChar m1 = true
    case neg => simp [matchAt, ha, hb, h1] at hm
    by_cases h2 : isDigitChar m2 = true
    case neg => simp [matchAt, ha, hb, h1, h2] at hm
    have hm' : (10 * digitVal a + digitVal b, 10 * digitVal m1 + digitVal m2) = (h, m) := by
      have := hm
      simp [matchAt, ha, hb, h1, h2] at this
      exact Prod.ext this.1 this.2
    injection hm' with e1 e2
    refine ⟨[], [a, b], m1, m2, rest3, by simp, rfl, .inr rfl, ?_, h1, h2, ?_, e2.symm⟩
    · intro c hcm
      rcases List.mem_cons.mp hcm with rfl | hcm
      · exact ha
      rcases List.mem_cons.mp hcm with rfl | hcm
      · exact hb
      · exact absurd hcm (List.not_mem_nil c)
    · simp only [List.foldl]
      omega
  case neg =>
    by_cases hbc : b = ':'
    case neg => simp [matchAt, ha, hb, hbc] at hm
    subst hbc
    rcases rest with _ | ⟨m1, rest1⟩
    · simp [matchAt, ha, hb] at hm
    rcases rest1 with _ | ⟨m2, rest2⟩
    · simp [matchAt, ha, hb] at hm
    by_cases h1 : isDigitChar m1 = true
    case neg => simp [matchAt, ha, hb, h1] at hm
    by_cases h2 : isDigitChar m2 = true
    case neg => simp [matchAt, ha, hb, h1, h2] at hm
    have hm' : (digitVal a, 10 * digitVal m1 + digitVal m2) = (h, m) := by
      have := hm
      simp [matchAt, ha, hb, h1, h2] at this
      exact Prod.ext this.1 this.2
    injection hm' with e1 e2
    refine ⟨[], [a], m1, m2, rest2, by simp, rfl, .inl rfl, ?_, h1, h2, ?_, e2.symm⟩
    · intro c hcm
      rcases List.mem_cons.mp hcm with rfl | hcm
      · exact ha
      · exact absurd hcm (List.not_mem_nil c)
    · simp only [List.foldl]
      omega

/-- An occurrence at position 0 is found by the anchored match. -/
theorem occursAt0_matchAt (cs : List Char) (h m : Nat) (ho : hhmmOccursAt cs 0 h m) :
    matchAt cs = some (h, m) := by
  obtain ⟨pre, ds, m1, m2, rest, hcs, hpre, hlen, hds, hm1, hm2, hh, hmm⟩ := ho
  have hpre0 : pre = [] := List.eq_nil_of_length_eq_zero hpre
  subst hpre0
  simp only [List.nil_append] at hcs
  have hcd : isDigitChar ':' = false := by decide
  rcases hlen with h1 | h2
  · obtain ⟨a, rfl⟩ : ∃ a, ds = [a] := by
      rcases ds with _ | ⟨a, _ | ⟨b, t⟩⟩ <;> simp at h1
      exact ⟨a, rfl⟩
    subst hcs
    have hda : isDigitChar a = true := hds a (by simp)
    subst hh hmm
    simp only [List.foldl]
    simp [matchAt, hda, hm1, hm2, hcd]
  · obtain ⟨a, b, rfl⟩ : ∃ a b, ds = [a, b] := by
      rcases ds with _ | ⟨a, _ | ⟨b, _ | ⟨c, t⟩⟩⟩ <;> simp at h2
      exact ⟨a, b, rfl⟩
    subst hcs
    have hda : isDigitChar a = true := hds a (by simp)
    have hdb : isDigitChar b = true := hds b (by simp)
    subst hh hmm
    simp only [List.foldl]
    simp [matchAt, hda, hdb, hm1, hm2]

/-- Occurrences shift by one position under cons. -/
theorem occursAt_cons_succ (c : Char) (cs : List Char) (p h m : Nat) :
    hhmmOccursAt (c :: cs) (p + 1) h m ↔ hhmmOccursAt cs p h m := by
  constructor
  · rintro ⟨pre, ds, m1, m2, rest, hcs, hpre, hrest⟩
    cases pre with
    | nil => simp at hpre
    | cons c0 pre' =>
      injection hcs with hc0 hcs'
      exact ⟨pre', ds, m1, m2, rest, hcs', by simpa using hpre, hrest⟩
  · rintro ⟨pre, ds, m1, m2, rest, hcs, hpre, hrest⟩
    exact ⟨c :: pre, ds, m1, m2, rest, by simp [hcs], by simp [hpre], hrest⟩

/-- The scan finds the leftmost occurrence. -/
theorem searchHHMM_first (p : Nat) : ∀ (cs : List Char) (h m : Nat),
    hhmmOccursAt cs p h m → (∀ p' h' m', hhmmOccursAt cs p' h' m' → p ≤ p') →
    searchHHMM cs = some (h, m) := by
  induction p with
  | zero =>
    intro cs h m ho _
    have hma := occursAt0_matchAt cs h m ho
    cases cs with
    | nil => simp [matchAt] at hma
    | cons c cs' => simp [searchHHMM, hma]
  | succ p ih =>
    intro cs h m ho hmin
    cases cs with
    | nil =>
      obtain ⟨pre, ds, m1, m2, rest, hcs, _⟩ := ho
      exact absurd hcs.symm (by simp)
    | cons c cs' =>
      have hnone : matchAt (c :: cs') = none := by
        cases hma : matchAt (c :: cs') with
        | none => rfl
        | some r =>
          obtain ⟨h0, m0⟩ := r
          have h00 := matchAt_some_occurs _ _ _ hma
          have := hmin 0 h0 m0 h00
          omega
      have ho' : hhmmOccursAt cs' p h m := (occursAt_cons_succ c cs' p h m).mp ho
      have hmin' : ∀ p' h' m', hhmmOccursAt cs' p' h' m' → p ≤ p' := by
        intro p' h' m' hocc
        have := hmin (p' + 1) h' m' ((occursAt_cons_succ c cs' p' h' m').mpr hocc)
        omega
      simp [searchHHMM, hnone, ih cs' h m ho' hmin']

/-- A successful scan exhibits an occurrence. -/
theorem searchHHMM_some_occurs (cs : List Char) (h m : Nat)
    (hs : searchHHMM cs = some (h, m)) : ∃ p, hhmmOccursAt cs p h m := by
  induction cs with
  | nil => simp [searchHHMM] at hs
  | cons c cs' ih =>
    simp only [searchHHMM] at hs
    cases hma : matchAt (c :: cs') with
    | some r =>
      rw [hma] at hs
      obtain ⟨h0, m0⟩ := r
      injection hs with hs'
      injection hs' with e1 e2
      subst e1 e2
      exact ⟨0, matchAt_some_occurs _ _ _ hma⟩
    | none =>
      rw [hma] at hs
      obtain ⟨p, hp⟩ := ih hs
      exact ⟨p + 1, (occursAt_cons_succ c cs' p h m).mpr hp⟩

/-- A `\d\d:\d\d` string has an occurrence at position 0. -/
theorem full_hhmm_occurs (s : String) (hf : isFullHHMM s = true) :
    ∃ h m, hhmmOccursAt s.data 0 h m := by
  unfold isFullHHMM at hf
  split at hf
  · rename_i a b c d e heq
    simp only [Bool.and_eq_true, beq_iff_eq] at hf
    obtain ⟨⟨⟨⟨ha, hb⟩, hc⟩, hd⟩, he⟩ := hf
    subst hc
    exact ⟨10 * digitVal a + digitVal b, 10 * digitVal d + digitVal e,
      [], [a, b], d, e, [], by simp [heq], rfl, .inr rfl,
      by
        intro x hx
        rcases List.mem_cons.mp hx with rfl | hx
        · exact ha
        rcases List.mem_cons.mp hx with rfl | hx
        · exact hb
        · exact absurd hx (List.not_mem_nil x),
      hd, he, by simp [List.foldl], rfl⟩
  · cases hf

/-- C3: time normalization reformats the first (leftmost, greedy) `H:MM` or
`HH:MM` substring as zero-padded `HH:MM`; and a payload field that is missing,
not a string, or contains no such substring makes `_require_time_field` raise
a `PrayerApiError` naming that field. -/
theorem time_normalization_and_field_errors :
    (∀ (s : String) (p h m : Nat), hhmmOccursAt s.data p h m →
      (∀ p' h' m', hhmmOccursAt s.data p' h' m' → p ≤ p') →
      format_time_to_hhmm s = pad2 h ++ ":" ++ pad2 m) ∧
    (∀ (payload : List (String × Json)) (key : String),
      pyDictGet payload key = none →
      _require_time_field payload key = .error ("Missing time field: " ++ key)) ∧
    (∀ (payload : List (String × Json)) (key : String) (v : Json),
      pyDictGet payload key = some v → (∀ t, v ≠ .str t) →
      _require_time_field payload key = .error ("Missing time field: " ++ key)) ∧
    (∀ (payload : List (String × Json)) (key : String) (raw : String),
      pyDictGet payload key = some (.str raw) →
      (∀ p h m, ¬ hhmmOccursAt raw.data p h m) →
      _require_time_field payload key = .error ("Invalid time format for " ++ key)) := by
  refine ⟨?_, ?_, ?_, ?_⟩
  · intro s p h m ho hmin
    simp [format_time_to_hhmm, searchHHMM_first p s.data h m ho hmin]
  · intro payload key hg
    simp [_require_time_field, hg]
  · intro payload key v hg hne
    cases v with
    | str t => exact absurd rfl (hne t)
    | null => simp [_require_time_field, hg]
    | bool b => simp [_require_time_field, hg]
    | num n => simp [_require_time_field, hg]
    | arr xs => simp [_require_time_field, hg]
    | obj fs => simp [_require_time_field, hg]
  · intro payload key raw hg hno
    have hsearch : searchHHMM raw.data = none := by
      cases hs : searchHHMM raw.data with
      | none => rfl
      | some r =>
        obtain ⟨h0, m0⟩ := r
        obtain ⟨p, hp⟩ := searchHHMM_some_occurs _ _ _ hs
        exact absurd hp (hno p h0 m0)
    have hfull : isFullHHMM raw = false := by
      cases hfm : isFullHHMM raw with
      | false => rfl
      | true =>
        obtain ⟨h0, m0, hp⟩ := full_hhmm_occurs raw hfm
        exact absurd hp (hno 0 h0 m0)
    simp [_require_time_field, hg, format_time_to_hhmm, hsearch, hfull]

/-- Witness for C3: the spec's example string, and a non-string field. -/
theorem time_normalization_witness :
    format_time_to_hhmm "5:07 (+03)" = "05:07" ∧
    _require_time_field [("Imsak", Json.num 5)] "Imsak" =
      .error ("Missing time field: " ++ "Imsak") :=
  ⟨time_normalization_and_field_errors.1 "5:07 (+03)" 0 5 7
      ⟨[], ['5'], '0', '7', [' ', '(', '+', '0', '3', ')'], by decide, rfl, .inl rfl,
        by decide, by decide, by decide, by decide, by decide⟩
      (fun _ _ _ _ => Nat.zero_le _),
   time_normalization_and_field_errors.2.2.1 [("Imsak", Json.num 5)] "Imsak"
     (Json.num 5) rfl (fun t ht => by cases ht)⟩

/-- A well-formed time string parses onto the base date with seconds zeroed. -/
theorem tsd_of_wellFormed (s : String) (base : Dt) (hw : wellFormedTime s = true) :
    time_string_to_datetime s base =
      some ⟨base.day, ((minutesOf s : Nat) : Int) * 60000⟩ := by
  unfold wellFormedTime at hw
  cases hp : parseHM s with
  | none => rw [hp] at hw; cases hw
  | some hm =>
    obtain ⟨h, m⟩ := hm
    rw [hp] at hw
    simp only [time_string_to_datetime, minutesOf, hp, Option.bind_eq_bind, Option.some_bind]
    rw [if_pos hw]

/-- With six well-formed times the prayer array is the six points in fixed
order, timestamped on `now`'s day. -/
theorem array_of_wellFormed (pt : PrayerTimes) (now : Dt)
    (h6 : ∀ n, wellFormedTime (pt.get n) = true) :
    get_prayer_times_array pt now = some
      [⟨.Fajr, pt.get .Fajr, todayTs pt now .Fajr⟩,
       ⟨.Sunrise, pt.get .Sunrise, todayTs pt now .Sunrise⟩,
       ⟨.Dhuhr, pt.get .Dhuhr, todayTs pt now .Dhuhr⟩,
       ⟨.Asr, pt.get .Asr, todayTs pt now .Asr⟩,
       ⟨.Maghrib, pt.get .Maghrib, todayTs pt now .Maghrib⟩,
       ⟨.Isha, pt.get .Isha, todayTs pt now .Isha⟩] := by
  simp only [get_prayer_times_array, PRAYER_NAMES, List.mapM, List.mapM.loop,
    tsd_of_wellFormed _ _ (h6 _), Option.bind_eq_bind, Option.some_bind,
    List.reverse, todayTs]
  rfl

/-- In a chronologically ordered day, being at or past any prayer puts `now`
at or past Fajr. -/
theorem atOrPast_fajr_of (pt : PrayerTimes) (now : Dt) (n : PrayerName)
    (hord : sortedSix pt) (h : nowAtOrPast pt now n) : nowAtOrPast pt now .Fajr := by
  obtain ⟨o1, o2, o3, o4, o5⟩ := hord
  cases n <;>
    (simp only [nowAtOrPast, todayTs, Dt.toMs, PrayerTimes.get] at h ⊢; omega)

/-- C7: the current prayer is the latest fixed-order prayer whose
today-timestamp is at or before `now` (ties to the backward scan from Isha);
at or past Isha the next prayer is tomorrow's Fajr with `is_after_isha` set
and the next-prayer time taken from the supplied tomorrow-Fajr when present
(else today's Fajr string, applied to tomorrow); before today's Fajr the
current prayer is reported as Isha with today's Fajr next; and the reported
milliseconds-until-next is never negative. -/
theorem prayer_clock_rules (pt : PrayerTimes) (tf : Option String) (now : Dt)
    (h6 : ∀ n, wellFormedTime (pt.get n) = true)
    (htf : ∀ t, tf = some t → wellFormedTime t = true)
    (hord : sortedSix pt) :
    ∃ info, get_current_prayer_info pt tf now = some info ∧
      0 ≤ info.time_until_next_ms ∧
      (∀ n : PrayerName, nowAtOrPast pt now n →
        (∀ n', prayerIdx n < prayerIdx n' → ¬ nowAtOrPast pt now n') →
        info.current_prayer = some n) ∧
      (nowAtOrPast pt now .Isha →
        info.next_prayer = .Fajr ∧ info.is_after_isha = true ∧
        (∀ t, tf = some t → info.next_prayer_time = t) ∧
        (tf = none → info.next_prayer_time = pt.Fajr)) ∧
      (¬ nowAtOrPast pt now .Fajr →
        info.current_prayer = some .Isha ∧ info.next_prayer = .Fajr ∧
        info.next_prayer_time = pt.Fajr ∧ info.is_after_isha = false) := by
  have harray := array_of_wellFormed pt now h6
  by_cases g5 : nowAtOrPast pt now PrayerName.Isha
  · have g5' : (todayTs pt now PrayerName.Isha).toMs ≤ now.toMs := g5
    have hscan : scanBackward now
        [⟨.Fajr, pt.get .Fajr, todayTs pt now .Fajr⟩,
         ⟨.Sunrise, pt.get .Sunrise, todayTs pt now .Sunrise⟩,
         ⟨.Dhuhr, pt.get .Dhuhr, todayTs pt now .Dhuhr⟩,
         ⟨.Asr, pt.get .Asr, todayTs pt now .Asr⟩,
         ⟨.Maghrib, pt.get .Maghrib, todayTs pt now .Maghrib⟩,
         ⟨.Isha, pt.get .Isha, todayTs pt now .Isha⟩] =
        some (⟨.Isha, pt.get .Isha, todayTs pt now .Isha⟩, none) := by
      simp [scanBackward, g5']
    rcases tf with _ | t
    · have hwf : wellFormedTime pt.Fajr = true := by
        have := h6 .Fajr
        simpa [PrayerTimes.get] using this
      have htsd := tsd_of_wellFormed pt.Fajr ⟨now.day + 1, now.msOfDay⟩ hwf
      have hinfo : get_current_prayer_info pt none now = some
          ⟨some .Isha, .Fajr, pt.Fajr,
           max 0 ((⟨now.day + 1, ((minutesOf pt.Fajr : Nat) : Int) * 60000⟩ : Dt).toMs -
             now.toMs), true⟩ := by
        simp only [get_current_prayer_info, harray, Option.bind_eq_bind, Option.some_bind,
          hscan, pyOrElse, htsd]
      refine ⟨_, hinfo, le_max_left 0 _, ?_, ?_, ?_⟩
      · intro n hn hmax
        cases n with
        | Isha => rfl
        | Fajr => exact absurd g5 (hmax .Isha (by decide))
        | Sunrise => exact absurd g5 (hmax .Isha (by decide))
        | Dhuhr => exact absurd g5 (hmax .Isha (by decide))
        | Asr => exact absurd g5 (hmax .Isha (by decide))
        | Maghrib => exact absurd g5 (hmax .Isha (by decide))
      · intro _
        refine ⟨rfl, rfl, ?_, fun _ => rfl⟩
        intro t ht
        cases ht
      · intro hnot
        exact absurd (atOrPast_fajr_of pt now .Isha hord g5) hnot
    · have hwt : wellFormedTime t = true := htf t rfl
      have htne : t ≠ "" := by
        intro he
        rw [he] at hwt
        exact absurd hwt (by decide)
      have htsd := tsd_of_wellFormed t ⟨now.day + 1, now.msOfDay⟩ hwt
      have hinfo : get_current_prayer_info pt (some t) now = some
          ⟨some .Isha, .Fajr, t,
           max 0 ((⟨now.day + 1, ((minutesOf t : Nat) : Int) * 60000⟩ : Dt).toMs -
             now.toMs), true⟩ := by
        simp only [get_current_prayer_info, harray, Option.bind_eq_bind, Option.some_bind,
          hscan, pyOrElse]
        rw [if_neg htne, htsd]
        rfl
      refine ⟨_, hinfo, le_max_left 0 _, ?_, ?_, ?_⟩
      · intro n hn hmax
        cases n with
        | Isha => rfl
        | Fajr => exact absurd g5 (hmax .Isha (by decide))
        | Sunrise => exact absurd g5 (hmax .Isha (by decide))
        | Dhuhr => exact absurd g5 (hmax .Isha (by decide))
        | Asr => exact absurd g5 (hmax .Isha (by decide))
        | Maghrib => exact absurd g5 (hmax .Isha (by decide))
      · intro _
        refine ⟨rfl, rfl, ?_, ?_⟩
        · intro t' ht'
          exact Option.some.inj ht'
        · intro h'
          cases h'
      · intro hnot
        exact absurd (atOrPast_fajr_of pt now .Isha hord g5) hnot
  · have g5' : ¬ (todayTs pt now PrayerName.Isha).toMs ≤ now.toMs := g5
    by_cases g4 : nowAtOrPast pt now PrayerName.Maghrib
    · have g4' : (todayTs pt now PrayerName.Maghrib).toMs ≤ now.toMs := g4
      have hscan : scanBackward now
          [⟨.Fajr, pt.get .Fajr, todayTs pt now .Fajr⟩,
           ⟨.Sunrise, pt.get .Sunrise, todayTs pt now .Sunrise⟩,
           ⟨.Dhuhr, pt.get .Dhuhr, todayTs pt now .Dhuhr⟩,
           ⟨.Asr, pt.get .Asr, todayTs pt now .Asr⟩,
           ⟨.Maghrib, pt.get .Maghrib, todayTs pt now .Maghrib⟩,
           ⟨.Isha, pt.get .Isha, todayTs pt now .Isha⟩] =
          some (⟨.Maghrib, pt.get .Maghrib, todayTs pt now .Maghrib⟩,
                some ⟨.Isha, pt.get .Isha, todayTs pt now .Isha⟩) := by
        simp [scanBackward, g5', g4']
      have hinfo : get_current_prayer_info pt tf now = some
          ⟨some .Maghrib, .Isha, pt.get .Isha,
           max 0 ((todayTs pt now .Isha).toMs - now.toMs), false⟩ := by
        simp only [get_current_prayer_info, harray, Option.bind_eq_bind, Option.some_bind,
          hscan]
      refine ⟨_, hinfo, le_max_left 0 _, ?_, ?_, ?_⟩
      · intro n hn hmax
        cases n with
        | Maghrib => rfl
        | Isha => exact absurd hn g5
        | Fajr => exact absurd g4 (hmax .Maghrib (by decide))
        | Sunrise => exact absurd g4 (hmax .Maghrib (by decide))
        | Dhuhr => exact absurd g4 (hmax .Maghrib (by decide))
        | Asr => exact absurd g4 (hmax .Maghrib (by decide))
      · intro hg5
        exact absurd hg5 g5
      · intro hnot
        exact absurd (atOrPast_fajr_of pt now .Maghrib hord g4) hnot
    · have g4' : ¬ (todayTs pt now PrayerName.Maghrib).toMs ≤ now.toMs := g4
      by_cases g3 : nowAtOrPast pt now PrayerName.Asr
      · have g3' : (todayTs pt now PrayerName.Asr).toMs ≤ now.toMs := g3
        have hscan : scanBackward now
            [⟨.Fajr, pt.get .Fajr, todayTs pt now .Fajr⟩,
             ⟨.Sunrise, pt.get .Sunrise, todayTs pt now .Sunrise⟩,
             ⟨.Dhuhr, pt.get .Dhuhr, todayTs pt now .Dhuhr⟩,
             ⟨.Asr, pt.get .Asr, todayTs pt now .Asr⟩,
             ⟨.Maghrib, pt.get .Maghrib, todayTs pt now .Maghrib⟩,
             ⟨.Isha, pt.get .Isha, todayTs pt now .Isha⟩] =
            some (⟨.Asr, pt.get .Asr, todayTs pt now .Asr⟩,
                  some ⟨.Maghrib, pt.get .Maghrib, todayTs pt now .Maghrib⟩) := by
          simp [scanBackward, g5', g4', g3']
        have hinfo : get_current_prayer_info pt tf now = some
            ⟨some .Asr, .Maghrib, pt.get .Maghrib,
             max 0 ((todayTs pt now .Maghrib).toMs - now.toMs), false⟩ := by
          simp only [get_current_prayer_info, harray, Option.bind_eq_bind, Option.some_bind,
            hscan]
        refine ⟨_, hinfo, le_max_left 0 _, ?_, ?_, ?_⟩
        · intro n hn hmax
          cases n with
          | Asr => rfl
          | Isha => exact absurd hn g5
          | Maghrib => exact absurd hn g4
          | Fajr => exact absurd g3 (hmax .Asr (by decide))
          | Sunrise => exact absurd g3 (hmax .Asr (by decide))
          | Dhuhr => exact absurd g3 (hmax .Asr (by decide))
        · intro hg5
          exact absurd hg5 g5
        · intro hnot
          exact absurd (atOrPast_fajr_of pt now .Asr hord g3) hnot
      · have g3' : ¬ (todayTs pt now PrayerName.Asr).toMs ≤ now.toMs := g3
        by_cases g2 : nowAtOrPast pt now PrayerName.Dhuhr
        · have g2' : (todayTs pt now PrayerName.Dhuhr).toMs ≤ now.toMs := g2
          have hscan : scanBackward now
              [⟨.Fajr, pt.get .Fajr, todayTs pt now .Fajr⟩,
               ⟨.Sunrise, pt.get .Sunrise, todayTs pt now .Sunrise⟩,
               ⟨.Dhuhr, pt.get .Dhuhr, todayTs pt now .Dhuhr⟩,
               ⟨.Asr, pt.get .Asr, todayTs pt now .Asr⟩,
               ⟨.Maghrib, pt.get .Maghrib, todayTs pt now .Maghrib⟩,
               ⟨.Isha, pt.get .Isha, todayTs pt now .Isha⟩] =
              some (⟨.Dhuhr, pt.get .Dhuhr, todayTs pt now .Dhuhr⟩,
                    some ⟨.Asr, pt.get .Asr, todayTs pt now .Asr⟩) := by
            simp [scanBackward, g5', g4', g3', g2']
          have hinfo : get_current_prayer_info pt tf now = some
              ⟨some .Dhuhr, .Asr, pt.get .Asr,
               max 0 ((todayTs pt now .Asr).toMs - now.toMs), false⟩ := by
            simp only [get_current_prayer_info, harray, Option.bind_eq_bind,
              Option.some_bind, hscan]
          refine ⟨_, hinfo, le_max_left 0 _, ?_, ?_, ?_⟩
          · intro n hn hmax
            cases n with
            | Dhuhr => rfl
            | Isha => exact absurd hn g5
            | Maghrib => exact absurd hn g4
            | Asr => exact absurd hn g3
            | Fajr => exact absurd g2 (hmax .Dhuhr (by decide))
            | Sunrise => exact absurd g2 (hmax .Dhuhr (by decide))
          · intro hg5
            exact absurd hg5 g5
          · intro hnot
            exact absurd (atOrPast_fajr_of pt now .Dhuhr hord g2) hnot
        · have g2' : ¬ (todayTs pt now PrayerName.Dhuhr).toMs ≤ now.toMs := g2
          by_cases g1 : nowAtOrPast pt now PrayerName.Sunrise
          · have g1' : (todayTs pt now PrayerName.Sunrise).toMs ≤ now.toMs := g1
            have hscan : scanBackward now
                [⟨.Fajr, pt.get .Fajr, todayTs pt now .Fajr⟩,
                 ⟨.Sunrise, pt.get .Sunrise, todayTs pt now .Sunrise⟩,
                 ⟨.Dhuhr, pt.get .Dhuhr, todayTs pt now .Dhuhr⟩,
                 ⟨.Asr, pt.get .Asr, todayTs pt now .Asr⟩,
                 ⟨.Maghrib, pt.get .Maghrib, todayTs pt now .Maghrib⟩,
                 ⟨.Isha, pt.get .Isha, todayTs pt now .Isha⟩] =
                some (⟨.Sunrise, pt.get .Sunrise, todayTs pt now .Sunrise⟩,
                      some ⟨.Dhuhr, pt.get .Dhuhr, todayTs pt now .Dhuhr⟩) := by
              simp [scanBackward, g5', g4', g3', g2', g1']
            have hinfo : get_current_prayer_info pt tf now = some
                ⟨some .Sunrise, .Dhuhr, pt.get .Dhuhr,
                 max 0 ((todayTs pt now .Dhuhr).toMs - now.toMs), false⟩ := by
              simp only [get_current_prayer_info, harray, Option.bind_eq_bind,
                Option.some_bind, hscan]
            refine ⟨_, hinfo, le_max_left 0 _, ?_, ?_, ?_⟩
            · intro n hn hmax
              cases n with
              | Sunrise => rfl
              | Isha => exact absurd hn g5
              | Maghrib => exact absurd hn g4
              | Asr => exact absurd hn g3
              | Dhuhr => exact absurd hn g2
              | Fajr => exact absurd g1 (hmax .Sunrise (by decide))
            · intro hg5
              exact absurd hg5 g5
            · intro hnot
              exact absurd (atOrPast_fajr_of pt now .Sunrise hord g1) hnot
          · have g1' : ¬ (todayTs pt now PrayerName.Sunrise).toMs ≤ now.toMs := g1
            by_cases g0 : nowAtOrPast pt now PrayerName.Fajr
            · have g0' : (todayTs pt now PrayerName.Fajr).toMs ≤ now.toMs := g0
              have hscan : scanBackward now
                  [⟨.Fajr, pt.get .Fajr, todayTs pt now .Fajr⟩,
                   ⟨.Sunrise, pt.get .Sunrise, todayTs pt now .Sunrise⟩,
                   ⟨.Dhuhr, pt.get .Dhuhr, todayTs pt now .Dhuhr⟩,
                   ⟨.Asr, pt.get .Asr, todayTs pt now .Asr⟩,
                   ⟨.Maghrib, pt.get .Maghrib, todayTs pt now .Maghrib⟩,
                   ⟨.Isha, pt.get .Isha, todayTs pt now .Isha⟩] =
                  some (⟨.Fajr, pt.get .Fajr, todayTs pt now .Fajr⟩,
                        some ⟨.Sunrise, pt.get .Sunrise, todayTs pt now .Sunrise⟩) := by
                simp [scanBackward, g5', g4', g3', g2', g1', g0']
              have hinfo : get_current_prayer_info pt tf now = some
                  ⟨some .Fajr, .Sunrise, pt.get .Sunrise,
                   max 0 ((todayTs pt now .Sunrise).toMs - now.toMs), false⟩ := by
                simp only [get_current_prayer_info, harray, Option.bind_eq_bind,
                  Option.some_bind, hscan]
              refine ⟨_, hinfo, le_max_left 0 _, ?_, ?_, ?_⟩
              · intro n hn hmax
                cases n with
                | Fajr => rfl
                | Isha => exact absurd hn g5
                | Maghrib => exact absurd hn g4
                | Asr => exact absurd hn g3
                | Dhuhr => exact absurd hn g2
                | Sunrise => exact absurd hn g1
              · intro hg5
                exact absurd hg5 g5
              · intro hnot
                exact absurd g0 hnot
            · have g0' : ¬ (todayTs pt now PrayerName.Fajr).toMs ≤ now.toMs := g0
              have hscan : scanBackward now
                  [⟨.Fajr, pt.get .Fajr, todayTs pt now .Fajr⟩,
                   ⟨.Sunrise, pt.get .Sunrise, todayTs pt now .Sunrise⟩,
                   ⟨.Dhuhr, pt.get .Dhuhr, todayTs pt now .Dhuhr⟩,
                   ⟨.Asr, pt.get .Asr, todayTs pt now .Asr⟩,
                   ⟨.Maghrib, pt.get .Maghrib, todayTs pt now .Maghrib⟩,
                   ⟨.Isha, pt.get .Isha, todayTs pt now .Isha⟩] = none := by
                simp [scanBackward, g5', g4', g3', g2', g1', g0']
              have hinfo : get_current_prayer_info pt tf now = some
                  ⟨some .Isha, .Fajr, pt.Fajr,
                   max 0 ((todayTs pt now .Fajr).toMs - now.toMs), false⟩ := by
                simp only [get_current_prayer_info, harray, Option.bind_eq_bind,
                  Option.some_bind, hscan, List.head?]
              refine ⟨_, hinfo, le_max_left 0 _, ?_, ?_, ?_⟩
              · intro n hn hmax
                cases n with
                | Fajr => exact absurd hn g0
                | Sunrise => exact absurd hn g1
                | Dhuhr => exact absurd hn g2
                | Asr => exact absurd hn g3
                | Maghrib => exact absurd hn g4
                | Isha => exact absurd hn g5
              · intro hg5
                exact absurd hg5 g5
              · intro _
                exact ⟨rfl, rfl, rfl, rfl⟩

/-- Witness for C7 at the spec's boundary example: Fajr 06:22 … Isha 20:08,
now exactly 20:08, tomorrow-Fajr supplied as "06:21". -/
theorem prayer_clock_rules_witness :
    ∃ info, get_current_prayer_info
        ⟨"06:22", "07:48", "13:23", "16:19", "18:48", "20:08"⟩ (some "06:21")
        ⟨0, 1208 * 60000⟩ = some info ∧
      info.current_prayer = some PrayerName.Isha ∧
      info.next_prayer = PrayerName.Fajr ∧
      info.next_prayer_time = "06:21" ∧
      info.is_after_isha = true ∧
      0 ≤ info.time_until_next_ms := by
  obtain ⟨info, hinfo, hms, hcur, hisha, _⟩ :=
    prayer_clock_rules ⟨"06:22", "07:48", "13:23", "16:19", "18:48", "20:08"⟩
      (some "06:21") ⟨0, 1208 * 60000⟩
      (by intro n; cases n <;> decide)
      (by intro t ht; cases ht; decide)
      (by refine ⟨?_, ?_, ?_, ?_, ?_⟩ <;> decide)
  obtain ⟨hnext, hafter, hsup, _⟩ := hisha (by unfold nowAtOrPast; decide)
  exact ⟨info, hinfo,
    hcur .Isha (by unfold nowAtOrPast; decide)
      (by intro n' hlt; cases n' <;> simp [prayerIdx] at hlt),
    hnext, hsup "06:21" rfl, hafter, hms⟩
